import Mathlib

/-!
# Verification of the CircuitSimu core (`src/core.py`)

A shallow embedding of the DC circuit-simulator core: the component data
model, the effective-resistance table, switch expansion, MNA assembly,
Gaussian elimination, post-processing, snapshot history, JSON projection
and the goal-seek root finder.  Python floats are modelled as exact
rationals (`ℚ`); stateful code (in-place mutation of component property
maps) is modelled by explicit state passing; code that can raise a
`ZeroDivisionError` is modelled with an explicit error value.  Python
dictionaries are modelled as insertion-ordered association lists with
update-in-place-or-append semantics.
-/

namespace CircuitSimu

/-- Python `int(x)` on a float: truncation toward zero. -/
def pyInt (q : ℚ) : ℤ := q.num.tdiv (q.den : ℤ)

/-- Dict lookup on an insertion-ordered association list (keys are unique in
Python dictionaries; we read the first match). -/
def alGet {α β : Type} [DecidableEq α] : List (α × β) → α → Option β
  | [], _ => none
  | (k, v) :: t, k' => if k = k' then some v else alGet t k'

/-- Dict update `d[k] = v`: overwrite in place if the key is present
(keeping its position), otherwise append, exactly as a Python dict. -/
def alSet {α β : Type} [DecidableEq α] : List (α × β) → α → β → List (α × β)
  | [], k, v => [(k, v)]
  | (k0, v0) :: t, k, v =>
      if k0 = k then (k0, v) :: t else (k0, v0) :: alSet t k v

/-- Grid point `(x, y)`; also the identity of an electrical node. -/
abbrev Point := ℤ × ℤ

/-- Lexicographic strict order on points, matching Python tuple comparison. -/
def pointLt (p q : Point) : Bool := p.1 < q.1 || (p.1 = q.1 && p.2 < q.2)

/-- Insert a point into a strictly increasing list, dropping duplicates.
Folding this over any list of points yields the same strictly sorted
duplicate-free list as Python's `sorted(set(...))`. -/
def insPt (p : Point) : List Point → List Point
  | [] => [p]
  | q :: t =>
      if p = q then q :: t
      else if pointLt p q then p :: q :: t
      else q :: insPt p t

/-- `sorted(set(pts))`. -/
def sortedNodes (pts : List Point) : List Point := pts.foldr insPt []

/-- Python `min` over a list of points (lexicographic); junk value `(0,0)`
on the empty list, which the source guards against. -/
def minPoint : List Point → Point
  | [] => (0, 0)
  | p :: t => t.foldl (fun acc q => if pointLt q acc then q else acc) p

/-! ## Kernel-friendly rational operations

`max`, `min`, `|·|` and `^` on `ℚ` are spelled out with `if`s and
structural recursion so that closed instances evaluate inside the kernel;
they agree with the library operations (lemmas below). -/

def qmax (a b : ℚ) : ℚ := if a ≤ b then b else a

def qmin (a b : ℚ) : ℚ := if a ≤ b then a else b

def qadd (a b : ℚ) : ℚ :=
  mkRat (a.num * b.den + b.num * a.den) (a.den * b.den)

def qneg (a : ℚ) : ℚ := mkRat (-a.num) a.den

def qsub (a b : ℚ) : ℚ := qadd a (qneg b)

def qmul (a b : ℚ) : ℚ := mkRat (a.num * b.num) (a.den * b.den)

def qdiv (a b : ℚ) : ℚ := Rat.divInt (a.num * b.den) (a.den * b.num)

def qabs (a : ℚ) : ℚ := if a.num < 0 then qneg a else a

/-- An integer as a rational. -/
def qofZ (z : ℤ) : ℚ := mkRat z 1

/-- `(10 : ℚ) ^ e` for an integer exponent. -/
def pow10z : ℤ → ℚ
  | .ofNat n => mkRat ((10 : ℕ) ^ n : ℕ) 1
  | .negSucc n => mkRat 1 ((10 : ℕ) ^ (n + 1))

/-! ## Numeric constants of the source -/

def R_NEAR_SHORT : ℚ := mkRat 1 1000000000

def MILLIONTH : ℚ := mkRat 1 1000000

def EPS12 : ℚ := mkRat 1 1000000000000

def EPS15 : ℚ := mkRat 1 1000000000000000

def BIG12 : ℚ := 1000000000000

/-! ## Component and circuit data model -/

/-- `Component`: identity, kind tag, endpoints, numeric properties and
string metadata (`props` and `meta` are Python dicts). -/
structure Component where
  cid : String
  ctype : String
  a : Point
  b : Point
  props : List (String × ℚ) := []
  meta : List (String × String) := []
deriving DecidableEq

/-- `Component.display_name` (`cid[:4]` taken character-wise). -/
def Component.display_name (c : Component) : String :=
  c.ctype ++ ":" ++ ⟨c.cid.data.take 4⟩

/-- `str.upper()` restricted to ASCII letters, which is all the source
compares (`var_prop.upper() == "R"`). -/
def asciiUpper (s : String) : String :=
  ⟨s.data.map (fun c =>
    if 'a' ≤ c && c ≤ 'z' then Char.ofNat (c.toNat - 32) else c)⟩

/-- A circuit: components keyed by identifier, in insertion order (a Python
dict guarantees the identifiers are pairwise distinct; the embedding keeps
them in a list and reads the first match). -/
structure Circuit where
  components : List Component := []
deriving DecidableEq

/-- `cir.components.get(cid)`. -/
def Circuit.getComp (cir : Circuit) (cid : String) : Option Component :=
  cir.components.find? (fun c => c.cid = cid)

/-! ## Parsing meter range lists

`_parse_float_list` accepts a JSON array string or a comma/semicolon
separated list and silently drops non-numeric tokens.  Numeric tokens are
modelled as exact decimal rationals (optional sign, decimal digits with an
optional fraction part and an optional decimal exponent); the `json.loads`
branch is modelled by stripping a surrounding bracket pair, which agrees
with it on flat numeric JSON arrays. -/

def natOfDigits (l : List Char) : ℕ :=
  l.foldl (fun acc c => acc * 10 + (c.toNat - 48)) 0

def spanDigits (l : List Char) : List Char × List Char :=
  l.span (fun c => c.isDigit)

/-- ASCII whitespace, as stripped by Python `str.strip()`. -/
def isSpaceChar (c : Char) : Bool :=
  c = ' ' || c = '\t' || c = '\n' || c = '\r' || c = '\x0b' || c = '\x0c'

/-- `str.strip()` on the character list. -/
def trimChars (l : List Char) : List Char :=
  ((l.dropWhile isSpaceChar).reverse.dropWhile isSpaceChar).reverse

/-- `s.split(",")`: split on commas, keeping empty fields. -/
def splitComma : List Char → List (List Char)
  | [] => [[]]
  | c :: t =>
      match splitComma t with
      | [] => [[c]]
      | h :: r => if c = ',' then [] :: h :: r else (c :: h) :: r

/-- Parse the mantissa `digits[.digits]`; fails when no digit is present. -/
def parseMantissa (cs : List Char) : Option (ℚ × List Char) :=
  let (ip, r1) := spanDigits cs
  match r1 with
  | '.' :: r2 =>
      let (fp, r3) := spanDigits r2
      if ip = [] && fp = [] then none
      else some (mkRat ((natOfDigits ip * 10 ^ fp.length + natOfDigits fp : ℕ) : ℤ) (10 ^ fp.length), r3)
  | _ => if ip = [] then none else some (mkRat ((natOfDigits ip : ℕ) : ℤ) 1, r1)

/-- Parse an optional exponent part `e[+|-]digits`. -/
def parseExponent (cs : List Char) : Option (ℤ × List Char) :=
  match cs with
  | 'e' :: r | 'E' :: r =>
      let (sgn, r1) : ℤ × List Char :=
        match r with
        | '-' :: rest => (-1, rest)
        | '+' :: rest => (1, rest)
        | _ => (1, r)
      let (ds, r2) := spanDigits r1
      if ds = [] then none else some (sgn * (natOfDigits ds : ℤ), r2)
  | _ => some (0, cs)

/-- Python `float(token)` on a plain decimal literal. -/
def parseFloatToken (cs0 : List Char) : Option ℚ :=
  let cs := trimChars cs0
  let (sgn, cs1) : ℚ × List Char :=
    match cs with
    | '+' :: r => (1, r)
    | '-' :: r => (qneg 1, r)
    | _ => (1, cs)
  match parseMantissa cs1 with
  | none => none
  | some (m, r1) =>
      match parseExponent r1 with
      | none => none
      | some (e, r2) =>
          if r2 = [] then some (qmul (qmul sgn m) (pow10z e)) else none

/-- `_parse_float_list`. -/
def parse_float_list (s : String) : List ℚ :=
  let t := trimChars s.data
  if t = [] then []
  else
    let body :=
      if t.head? = some '[' && t.getLast? = some ']'
      then (t.drop 1).dropLast else t
    let parts := splitComma (body.map (fun c => if c = ';' then ',' else c))
    parts.filterMap parseFloatToken

/-! ## Meter models -/

/-- `meter_ranges`. -/
def meter_ranges (comp : Component) : List ℚ :=
  if comp.ctype = "ammeter" then
    parse_float_list ((alGet comp.meta "ranges_I").getD
      ((alGet comp.meta "ranges").getD ""))
  else if comp.ctype = "voltmeter" then
    parse_float_list ((alGet comp.meta "ranges_V").getD
      ((alGet comp.meta "ranges").getD ""))
  else if comp.ctype = "galvanometer" then
    parse_float_list ((alGet comp.meta "ranges_I").getD
      ((alGet comp.meta "ranges").getD ""))
  else []

/-- `meter_range_index`. -/
def meter_range_index (comp : Component) : ℤ :=
  pyInt ((alGet comp.props "range").getD 0)

/-- `meter_full_scale`: the ranges entry at the clamped range index. -/
def meter_full_scale (comp : Component) : Option ℚ :=
  let ranges := meter_ranges comp
  if ranges = [] then none
  else
    let idx := meter_range_index comp
    let idx := if idx < 0 then 0 else idx
    let i : ℕ := if idx.toNat ≤ ranges.length - 1 then idx.toNat else ranges.length - 1
    some (ranges.getD i 0)

/-- Result of the effective-resistance table: a finite value, an "open"
branch (Python `None`), or a raised `ZeroDivisionError` (`err`, reachable
only in the galvanometer parallel combination). -/
inductive EffRes
  | val (r : ℚ)
  | opn
  | err
deriving DecidableEq

/-- `meter_effective_resistance`. -/
def meter_effective_resistance (comp : Component) : EffRes :=
  if comp.ctype = "ammeter" then
    match meter_full_scale comp with
    | none => .val (qmax ((alGet comp.props "Rin").getD (mkRat 1 20)) R_NEAR_SHORT)
    | some fs =>
        let burden_v := (alGet comp.props "burden_V").getD (mkRat 1 20)
        .val (qmax (qdiv burden_v (qmax (qabs fs) EPS15)) R_NEAR_SHORT)
  else if comp.ctype = "voltmeter" then
    match meter_full_scale comp with
    | none => .val (qmax ((alGet comp.props "Rin").getD 1000000) R_NEAR_SHORT)
    | some fs =>
        let ohm_per_v := (alGet comp.props "ohm_per_V").getD
          ((alGet comp.props "sens").getD 10000)
        .val (qmax (qmul ohm_per_v (qmax (qabs fs) EPS15)) R_NEAR_SHORT)
  else if comp.ctype = "galvanometer" then
    match meter_full_scale comp with
    | none => .val (qmax ((alGet comp.props "Rcoil").getD 50) R_NEAR_SHORT)
    | some fs =>
        let Rcoil := (alGet comp.props "Rcoil").getD 50
        let Ifs := (alGet comp.props "Ifs").getD (mkRat 1 20000)
        if qabs Ifs < EPS15 then .val (qmax Rcoil R_NEAR_SHORT)
        else
          let ratio := qdiv (qabs fs) (qabs Ifs)
          if ratio ≤ 1 then .val (qmax Rcoil R_NEAR_SHORT)
          else
            let Rs := qmax (qdiv Rcoil (qsub ratio 1)) R_NEAR_SHORT
            if Rcoil = 0 then .err
            else
              let den := qadd (qdiv 1 Rcoil) (qdiv 1 Rs)
              if den = 0 then .err
              else .val (qmax (qdiv 1 den) R_NEAR_SHORT)
  else .val BIG12

/-- `bulb_resistance`. -/
def bulb_resistance (Vr Wr : ℚ) : ℚ :=
  if Wr ≤ EPS12 then BIG12 else qmax (qdiv (qmul Vr Vr) Wr) MILLIONTH

/-- `effective_resistance`: the value together with the possibly updated
component (the Python function mutates a rheostat's `R` in place; the
embedding returns the updated component). -/
def effective_resistance (comp : Component) : EffRes × Component :=
  let t := comp.ctype
  if t = "wire" then (.val R_NEAR_SHORT, comp)
  else if t = "resistor" then
    (.val (qmax ((alGet comp.props "R").getD 100) MILLIONTH), comp)
  else if t = "bulb" then
    let Vr := (alGet comp.props "Vr").getD 6
    let Wr := (alGet comp.props "Wr").getD 3
    (.val (bulb_resistance Vr Wr), comp)
  else if t = "rheostat" then
    let R := (alGet comp.props "R").getD 100
    let Rmin := (alGet comp.props "Rmin").getD 0
    let Rmax := (alGet comp.props "Rmax").getD (qmax R 100)
    let lo := if Rmax < Rmin then Rmax else Rmin
    let hi := if Rmax < Rmin then Rmin else Rmax
    let R' := qmax (qmin R hi) lo
    (.val (qmax R' MILLIONTH), { comp with props := alSet comp.props "R" R' })
  else if t = "ammeter" then (meter_effective_resistance comp, comp)
  else if t = "galvanometer" then (meter_effective_resistance comp, comp)
  else if t = "voltmeter" then (meter_effective_resistance comp, comp)
  else if t = "switch_spst" then
    (if pyInt ((alGet comp.props "state").getD 1) = 1 then .val R_NEAR_SHORT
     else .opn, comp)
  else if t = "button_momentary" then
    (if pyInt ((alGet comp.props "pressed").getD 0) = 1 then .val R_NEAR_SHORT
     else .opn, comp)
  else (.opn, comp)

/-- The value part of `effective_resistance`. -/
def effResV (comp : Component) : EffRes := (effective_resistance comp).1

/-- The component after the (idempotent) rheostat write-back. -/
def clampComp (comp : Component) : Component := (effective_resistance comp).2

/-! ## Gaussian elimination (`solve_linear`)

Partial pivoting with tolerance `1e-12`; rows are reduced Gauss-Jordan
style exactly as the source does (scaling and eliminating only the columns
from the pivot column on, skipping eliminations whose factor is below the
tolerance). -/

/-- Multiply the entries of a row from index `start` on by `k`. -/
def rowScaleFrom (k : ℚ) : ℕ → List ℚ → List ℚ
  | _, [] => []
  | 0, v :: t => qmul v k :: rowScaleFrom k 0 t
  | s + 1, v :: t => v :: rowScaleFrom k s t

/-- `row[c] -= factor * pivotRow[c]` for `c ≥ start`. -/
def rowElimFrom (factor : ℚ) : ℕ → List ℚ → List ℚ → List ℚ
  | _, _, [] => []
  | 0, p :: pt, v :: t => qsub v (qmul factor p) :: rowElimFrom factor 0 pt t
  | 0, [], l => l
  | s + 1, p, v :: t => v :: rowElimFrom factor s p.tail t
  -- pivot row and row have the same length throughout; the mixed cases
  -- are junk completions

/-- `M[r][c]` with junk value 0 out of range. -/
def matGet (M : List (List ℚ)) (r c : ℕ) : ℚ := (M.getD r []).getD c 0

/-- Swap two list entries. -/
def listSwap {α : Type} (l : List α) (i j : ℕ) : List α :=
  match l.get? i, l.get? j with
  | some x, some y => (l.set i y).set j x
  | _, _ => l

/-- Pivot search for column `col`: start at row `col`, take a strictly
larger magnitude from the rows below, as in the source. -/
def pivotSearch (M : List (List ℚ)) (n col : ℕ) : ℕ × ℚ :=
  (List.range (n - (col + 1))).foldl
    (fun (acc : ℕ × ℚ) k =>
      let r := col + 1 + k
      let v := qabs (matGet M r col)
      if acc.2 < v then (r, v) else acc)
    (col, qabs (matGet M col col))

/-- One column step of the elimination; `none` when every candidate pivot
in the column is below the tolerance. -/
def elimColumn (n : ℕ) (st : List (List ℚ) × List ℚ) (col : ℕ) :
    Option (List (List ℚ) × List ℚ) :=
  let M := st.1
  let x := st.2
  let (pivot, best) := pivotSearch M n col
  if best < EPS12 then none
  else
    let M := if pivot ≠ col then listSwap M col pivot else M
    let x := if pivot ≠ col then listSwap x col pivot else x
    let piv := matGet M col col
    let inv := qdiv 1 piv
    let M := M.set col (rowScaleFrom inv col (M.getD col []))
    let x := x.set col (qmul (x.getD col 0) inv)
    let pivRow := M.getD col []
    let xcol := x.getD col 0
    some ((List.range n).foldl
      (fun (acc : List (List ℚ) × List ℚ) r =>
        if r = col then acc
        else
          let factor := matGet acc.1 r col
          if qabs factor < EPS12 then acc
          else
            (acc.1.set r (rowElimFrom factor col pivRow (acc.1.getD r [])),
             acc.2.set r (qsub (acc.2.getD r 0) (qmul factor xcol))))
      (M, x))

/-- `solve_linear`: Gaussian elimination with partial pivoting; `none`
when the system is singular (a pivot below `1e-12`). -/
def solve_linear (A : List (List ℚ)) (b : List ℚ) : Option (List ℚ) :=
  let n := A.length
  ((List.range n).foldlM (elimColumn n) (A, b)).map (·.2)

/-! ## JSON projection and history -/

/-- One element of the `components` array of the JSON projection. -/
structure ComponentJson where
  cid : String
  ctype : String
  a : List ℤ
  b : List ℤ
  props : List (String × ℚ)
  meta : List (String × String)
deriving DecidableEq

/-- The JSON object written by `Circuit.to_json`. -/
structure CircuitJson where
  components : List ComponentJson
deriving DecidableEq

/-- The JSON projection of one component. -/
def mkJson (c : Component) : ComponentJson :=
  ⟨c.cid, c.ctype, [c.a.1, c.a.2], [c.b.1, c.b.2], c.props, c.meta⟩

/-- `Circuit.to_json`. -/
def Circuit.to_json (cir : Circuit) : CircuitJson :=
  ⟨cir.components.map mkJson⟩

/-- Python `tuple(lst)` narrowed to a point; the source only applies it to
the two-element arrays produced by `to_json`. -/
def tupleOfList : List ℤ → Point
  | [x, y] => (x, y)
  | _ => (0, 0)

/-- The component rebuilt from one JSON element. -/
def mkComp (it : ComponentJson) : Component :=
  ⟨it.cid, it.ctype, tupleOfList it.a, tupleOfList it.b, it.props, it.meta⟩

/-- `Circuit.from_json`: rebuild the component dict keyed by `cid`
(a duplicated identifier overwrites the earlier entry, as in a dict). -/
def Circuit.from_json (obj : CircuitJson) : Circuit :=
  ⟨(obj.components.foldl
      (fun (acc : List (String × Component)) it => alSet acc it.cid (mkComp it))
      []).map (·.2)⟩

/-- `CircuitHistory`: bounded undo/redo of JSON snapshots. -/
structure CircuitHistory where
  max_len : ℕ := 200
  undo_stack : List CircuitJson := []
  redo_stack : List CircuitJson := []
deriving DecidableEq

/-- `CircuitHistory.record`: push a snapshot unless it equals the current
top (in which case the method returns immediately), trim to `max_len`,
and clear the redo stack. -/
def CircuitHistory.record (h : CircuitHistory) (cir : Circuit) :
    CircuitHistory :=
  let snap := cir.to_json
  if h.undo_stack ≠ [] ∧ h.undo_stack.getLast? = some snap then h
  else
    let undo := h.undo_stack ++ [snap]
    let undo := if h.max_len < undo.length
      then undo.drop (undo.length - h.max_len) else undo
    { h with undo_stack := undo, redo_stack := [] }

/-- `CircuitHistory.can_undo`. -/
def CircuitHistory.can_undo (h : CircuitHistory) : Bool :=
  2 ≤ h.undo_stack.length

/-- `CircuitHistory.can_redo`. -/
def CircuitHistory.can_redo (h : CircuitHistory) : Bool :=
  0 < h.redo_stack.length

/-! ## Switch expansion -/

/-- The state grown by the expansion pass of `solve_circuit`: the solver
component list plus the surrogate-to-parent and surrogate-to-label maps. -/
structure Expansion where
  expanded : List Component := []
  solver_parent : List (String × String) := []
  solver_label : List (String × String) := []
deriving DecidableEq

/-- Integer coordinate read from the property map with an integer default
(`int(c.props.get(key, dflt))`). -/
def coordProp (props : List (String × ℚ)) (key : String) (dflt : ℤ) : ℤ :=
  pyInt ((alGet props key).getD (qofZ dflt))

/-- Record one surrogate (or pass-through) component. -/
def Expansion.push (st : Expansion) (cc : Component) (parent lab : String) :
    Expansion :=
  { expanded := st.expanded ++ [cc],
    solver_parent := alSet st.solver_parent cc.cid parent,
    solver_label := alSet st.solver_label cc.cid lab }

/-- The `switch_spst` surrogates (with branch labels) one original
component contributes to the solver list (lines 350-423); non-switch
components pass through with the label `"main"`. -/
def surrogatesOf (c : Component) : List (Component × String) :=
  if c.ctype = "switch_spdt" then
    let throw := pyInt ((alGet c.props "throw").getD 0)
    let c2 : Point := (coordProp c.props "c_x" c.b.1, coordProp c.props "c_y" (c.b.2 + 2))
    if throw = 0 then
      [(⟨c.cid ++ ":t0", "switch_spst", c.a, c.b, [("state", 1)],
        [("variant", "spdt->b")]⟩, "t0")]
    else
      [(⟨c.cid ++ ":t1", "switch_spst", c.a, c2, [("state", 1)],
        [("variant", "spdt->c2")]⟩, "t1")]
  else if c.ctype = "switch_sp3t" then
    let throw := pyInt ((alGet c.props "throw").getD 0)
    let throw := if throw < 0 then 0 else throw
    let throw := if 2 < throw then 2 else throw
    let t1 := c.b
    let t2 : Point := (coordProp c.props "c_x" c.b.1, coordProp c.props "c_y" (c.b.2 + 2))
    let t3 : Point := (coordProp c.props "d_x" c.b.1, coordProp c.props "d_y" (c.b.2 + 4))
    let target := if throw = 0 then t1 else if throw = 1 then t2 else t3
    [(⟨c.cid ++ ":t" ++ toString throw, "switch_spst", c.a, target,
      [("state", 1)], [("variant", "sp3t->t" ++ toString throw)]⟩,
      "t" ++ toString throw)]
  else if c.ctype = "switch_dpst" then
    let state := pyInt ((alGet c.props "state").getD 1)
    let p2a : Point := (coordProp c.props "c_x" c.a.1, coordProp c.props "c_y" (c.a.2 + 2))
    let p2b : Point := (coordProp c.props "d_x" c.b.1, coordProp c.props "d_y" (c.b.2 + 2))
    [(⟨c.cid ++ ":p1", "switch_spst", c.a, c.b,
      [("state", qofZ state)], [("variant", "dpst:p1")]⟩, "p1"),
     (⟨c.cid ++ ":p2", "switch_spst", p2a, p2b,
      [("state", qofZ state)], [("variant", "dpst:p2")]⟩, "p2")]
  else if c.ctype = "switch_dpdt" then
    let throw := pyInt ((alGet c.props "throw").getD 0)
    let throw := if throw < 0 then 0 else throw
    let throw := if 1 < throw then 1 else throw
    let t1_0 := c.b
    let t1_1 : Point := (coordProp c.props "c_x" c.b.1, coordProp c.props "c_y" (c.b.2 + 2))
    let com2 : Point := (coordProp c.props "d_x" c.a.1, coordProp c.props "d_y" (c.a.2 + 4))
    let t2_0 : Point := (coordProp c.props "e_x" (com2.1 + 6), coordProp c.props "e_y" com2.2)
    let t2_1 : Point := (coordProp c.props "f_x" t2_0.1, coordProp c.props "f_y" (t2_0.2 + 2))
    let pole1 := if throw = 0 then t1_0 else t1_1
    let pole2 := if throw = 0 then t2_0 else t2_1
    [(⟨c.cid ++ ":p1", "switch_spst", c.a, pole1,
      [("state", 1)], [("variant", "dpdt:p1:t" ++ toString throw)]⟩, "p1"),
     (⟨c.cid ++ ":p2", "switch_spst", com2, pole2,
      [("state", 1)], [("variant", "dpdt:p2:t" ++ toString throw)]⟩, "p2")]
  else if c.ctype = "button_momentary" then
    let pressed := pyInt ((alGet c.props "pressed").getD 0)
    [(⟨c.cid ++ ":m", "switch_spst", c.a, c.b,
      [("state", if pressed = 1 then 1 else 0)], [("variant", "momentary")]⟩,
      "m")]
  else [(c, "main")]

/-- One step of the expansion loop: push this component's surrogates in
order. -/
def expandOne (st : Expansion) (c : Component) : Expansion :=
  (surrogatesOf c).foldl (fun acc p => acc.push p.1 c.cid p.2) st

/-- The full expansion pass. -/
def expandComponents (comps : List Component) : Expansion :=
  comps.foldl expandOne {}

/-! ## MNA assembly -/

/-- Ground selection: the `b` endpoint of the first socket, else the
minimum endpoint of the original components, else `(0, 0)`. -/
def groundOf (comps : List Component) : Point :=
  match comps.find? (fun c => c.ctype = "socket") with
  | some c => c.b
  | none => minPoint (comps.foldr (fun c acc => c.a :: c.b :: acc) [])

/-- All endpoint coordinates of the solver components. -/
def endpointsOf (comps : List Component) : List Point :=
  comps.foldr (fun c acc => c.a :: c.b :: acc) []

/-- Node enumeration: the sorted distinct solver nodes except ground,
numbered from 0. -/
def nodeIndexOf (nodes : List Point) (ground : Point) : List (Point × ℕ) :=
  ((nodes.filter (fun n => n ≠ ground)).enum).map (fun p => (p.2, p.1))

/-- `M[i][j] = v`. -/
def matSet (M : List (List ℚ)) (i j : ℕ) (v : ℚ) : List (List ℚ) :=
  M.set i ((M.getD i []).set j v)

/-- `M[i][j] += d`. -/
def matAdd (M : List (List ℚ)) (i j : ℕ) (d : ℚ) : List (List ℚ) :=
  matSet M i j (qadd (matGet M i j) d)

/-- Conductance stamping over the solver components; `none` when an
effective resistance raises (galvanometer `ZeroDivisionError`). -/
def stampConductances (expanded : List Component)
    (nodeIndex : List (Point × ℕ)) (A0 : List (List ℚ)) :
    Option (List (List ℚ)) :=
  expanded.foldlM
    (fun A c =>
      if c.ctype = "socket" then some A
      else
        match effResV c with
        | .err => none
        | .opn => some A
        | .val R =>
            let g := qdiv 1 R
            let ia := alGet nodeIndex c.a
            let ib := alGet nodeIndex c.b
            let A := match ia with | some i => matAdd A i i g | none => A
            let A := match ib with | some i => matAdd A i i g | none => A
            let A := match ia, ib with
              | some i, some j => matAdd (matAdd A i j (qneg g)) j i (qneg g)
              | _, _ => A
            some A)
    A0

/-- Auxiliary-row stamping for the voltage sources. -/
def stampSources (vsources : List Component) (nodeIndex : List (Point × ℕ))
    (Ab : List (List ℚ) × List ℚ) : List (List ℚ) × List ℚ :=
  (vsources.enum).foldl
    (fun (acc : List (List ℚ) × List ℚ) kc =>
      let (k, c) := kc
      let row := nodeIndex.length + k
      let ia := alGet nodeIndex c.a
      let ib := alGet nodeIndex c.b
      let V := (alGet c.props "V").getD 5
      let A := acc.1
      let A := match ia with
        | some i => matAdd (matAdd A i row 1) row i 1
        | none => A
      let A := match ib with
        | some i => matAdd (matAdd A i row (qneg 1)) row i (qneg 1)
        | none => A
      (A, acc.2.set row V))
    Ab

/-- The assembled MNA system together with everything post-processing
needs. -/
structure MnaSystem where
  ex : Expansion
  ground : Point
  nodeIndex : List (Point × ℕ)
  vsources : List Component
  A : List (List ℚ)
  b : List ℚ
deriving DecidableEq

/-- Outcome of the assembly phase: the system is empty (`N = 0`, the
solver returns `ok=true` with empty maps), a `ZeroDivisionError` was
raised while stamping, or the system was assembled. -/
inductive AssembleOut
  | empty
  | raised
  | sys (s : MnaSystem)
deriving DecidableEq

/-- Expansion, ground and node selection, and stamping (lines 334-483). -/
def assembleMNA (cir : Circuit) : AssembleOut :=
  let ex := expandComponents cir.components
  let ground := groundOf cir.components
  let nodes := sortedNodes (endpointsOf ex.expanded)
  let nodeIndex := nodeIndexOf nodes ground
  let vsources := ex.expanded.filter (fun c => c.ctype = "socket")
  let N := nodeIndex.length + vsources.length
  if N = 0 then .empty
  else
    let A0 := List.replicate N (List.replicate N (0 : ℚ))
    match stampConductances ex.expanded nodeIndex A0 with
    | none => .raised
    | some A1 =>
        let Ab := stampSources vsources nodeIndex (A1, List.replicate N 0)
        .sys ⟨ex, ground, nodeIndex, vsources, Ab.1, Ab.2⟩

/-! ## Post-processing and `solve_circuit` -/

/-- Warnings appended by `solve_circuit`, modelled as tagged values (the
source builds display strings; their numeric formatting is presentation
only). -/
inductive Warning
  | singular
  | sourceOvercurrent (name : String)
  | openLoop
deriving DecidableEq

/-- `SolveResult`. -/
structure SolveResult where
  ok : Bool
  node_v : List (Point × ℚ) := []
  comp_i : List (String × ℚ) := []
  warnings : List Warning := []
  singular : Bool := false
  comp_flags : List (String × String) := []
  comp_branch_i : List (String × List (String × ℚ)) := []
deriving DecidableEq

/-- `node_v.get(p, 0.0)`. -/
def nodeVGet (nv : List (Point × ℚ)) (p : Point) : ℚ := (alGet nv p).getD 0

/-- First index of an element in a list (`list.index`, always found at the
call sites). -/
def idxOf {α : Type} [DecidableEq α] : List α → α → ℕ
  | [], _ => 0
  | y :: t, x => if y = x then 0 else idxOf t x + 1

/-- Minimum of a nonempty list of strings: `sorted(keys)[0]`. -/
def minKey : List String → String
  | [] => ""
  | s :: t => t.foldl (fun acc x => if x < acc then x else acc) s

/-- The current assigned to one solver component (lines 498-510): sockets
read their auxiliary solution row; others use `(Va - Vb) / R`, and 0 when
open. -/
def solverCurrentOf (s : MnaSystem) (node_v : List (Point × ℚ))
    (sol : List ℚ) (c : Component) : ℚ :=
  if c.ctype = "socket" then
    sol.getD (s.nodeIndex.length + idxOf s.vsources c) 0
  else
    match effResV c with
    | .val R => qdiv (qsub (nodeVGet node_v c.a) (nodeVGet node_v c.b)) R
    | _ => 0

/-- `solver_comp_i`: the per-solver-component current dict. -/
def solverCompIOf (s : MnaSystem) (node_v : List (Point × ℚ))
    (sol : List ℚ) : List (String × ℚ) :=
  s.ex.expanded.foldl
    (fun acc c => alSet acc c.cid (solverCurrentOf s node_v sol c)) []

/-- The `node_v` dict: ground pinned to 0, then the indexed nodes in
enumeration order. -/
def nodeVOf (s : MnaSystem) (sol : List ℚ) : List (Point × ℚ) :=
  (s.ground, 0) :: s.nodeIndex.map (fun p => (p.1, sol.getD p.2 0))

/-- `comp_branch_i` as built by the loop of lines 514-516 (a nested dict
update `comp_branch_i.setdefault(parent, {})[lab] = val`). -/
def branchBuild (labOf : String → String) (valOf : String → ℚ)
    (entries : List (String × String)) :
    List (String × List (String × ℚ)) :=
  entries.foldl
    (fun acc e =>
      alSet acc e.2 (alSet ((alGet acc e.2).getD []) (labOf e.1) (valOf e.1)))
    []

/-- `comp_branch_i` of the solve. -/
def compBranchIOf (ex : Expansion) (solver_comp_i : List (String × ℚ)) :
    List (String × List (String × ℚ)) :=
  branchBuild (fun scid => (alGet ex.solver_label scid).getD "main")
    (fun scid => (alGet solver_comp_i scid).getD 0) ex.solver_parent

/-- The `open` parent flags of lines 517-519.  The source fills
`comp_flags` and `comp_branch_i` in a single loop over `solver_parent`;
the two dicts are independent, so the embedding builds them in two
identical passes. -/
def openFlagsOf (ex : Expansion) : List (String × String) :=
  ex.solver_parent.foldl
    (fun acc e =>
      match ex.expanded.find? (fun x => x.cid = e.1) with
      | some sc =>
          if sc.ctype ≠ "socket" ∧ effResV sc = .opn
          then alSet acc e.2 "open" else acc
      | none => acc)
    []

/-- Per-original-component currents (lines 521-534): take the `"main"`
branch if present, else the alphabetically first branch, else the solver
current. -/
def compIOf (comps : List Component) (solver_comp_i : List (String × ℚ))
    (comp_branch_i : List (String × List (String × ℚ))) :
    List (String × ℚ) :=
  comps.foldl
    (fun acc oc =>
      if oc.ctype = "socket" then
        alSet acc oc.cid ((alGet solver_comp_i oc.cid).getD 0)
      else
        match alGet comp_branch_i oc.cid with
        | some branches =>
            if branches ≠ [] then
              match alGet branches "main" with
              | some v => alSet acc oc.cid v
              | none =>
                  alSet acc oc.cid
                    ((alGet branches (minKey (branches.map (·.1)))).getD 0)
            else alSet acc oc.cid ((alGet solver_comp_i oc.cid).getD 0)
        | none => alSet acc oc.cid ((alGet solver_comp_i oc.cid).getD 0))
    []

/-- The source-overcurrent test `abs(I) > Iwarn` of line 538. -/
def srcOvercurrent (solver_comp_i comp_i : List (String × ℚ))
    (c : Component) : Bool :=
  (alGet c.props "Iwarn").getD 5 <
    qabs ((alGet solver_comp_i c.cid).getD ((alGet comp_i c.cid).getD 0))

/-- The warnings appended by the source-overcurrent loop (lines 536-540).
The source appends warnings and sets flags in one loop whose body depends
only on the current source, so the embedding separates the two outputs. -/
def sourceWarnings (solver_comp_i comp_i : List (String × ℚ))
    (vsources : List Component) : List Warning :=
  vsources.filterMap
    (fun c =>
      if srcOvercurrent solver_comp_i comp_i c
      then some (.sourceOvercurrent c.display_name) else none)

/-- The `source_overcurrent` flags of the same loop. -/
def sourceFlags (solver_comp_i comp_i : List (String × ℚ))
    (vsources : List Component) (flags0 : List (String × String)) :
    List (String × String) :=
  vsources.foldl
    (fun acc c =>
      if srcOvercurrent solver_comp_i comp_i c
      then alSet acc c.cid "source_overcurrent" else acc)
    flags0

/-- `max_iwarn` (lines 542-547): `None` only when there is no source; the
accumulator is floored at 0 by `max_iwarn or 0.0`. -/
def maxIwarnOf (vsources : List Component) : Option ℚ :=
  vsources.foldl
    (fun acc c => some (qmax ((alGet c.props "Iwarn").getD 5) (acc.getD 0)))
    none

/-- The secondary `overcurrent` flags (lines 548-556). -/
def finalFlagsOf (comps : List Component) (vsources : List Component)
    (comp_i : List (String × ℚ)) (flags1 : List (String × String)) :
    List (String × String) :=
  if (maxIwarnOf vsources).isSome ∧
      vsources.any (fun c => alGet flags1 c.cid = some "source_overcurrent") then
    let thr := (maxIwarnOf vsources).getD 0
    comps.foldl
      (fun acc c =>
        if (alGet acc c.cid).isSome then acc
        else if c.ctype = "socket" then acc
        else if thr < qabs ((alGet comp_i c.cid).getD 0) then
          alSet acc c.cid "overcurrent"
        else acc)
      flags1
  else flags1

/-- The quiet-loop test of line 557: a non-empty source list, every source
below 1 µA. -/
def quietCond (vsources : List Component) (comp_i : List (String × ℚ)) :
    Bool :=
  decide (vsources ≠ []) &&
    vsources.all (fun c => qabs ((alGet comp_i c.cid).getD 0) < MILLIONTH)

/-- The final warning list of a successful solve. -/
def warningsOf (solver_comp_i comp_i : List (String × ℚ))
    (vsources : List Component) : List Warning :=
  sourceWarnings solver_comp_i comp_i vsources ++
    (if quietCond vsources comp_i then [.openLoop] else [])

/-- Post-processing after a successful linear solve (lines 493-566). -/
def postProcess (comps : List Component) (s : MnaSystem) (sol : List ℚ) :
    SolveResult :=
  let node_v := nodeVOf s sol
  let solver_comp_i := solverCompIOf s node_v sol
  let comp_branch_i := compBranchIOf s.ex solver_comp_i
  let comp_i := compIOf comps solver_comp_i comp_branch_i
  let flags1 := sourceFlags solver_comp_i comp_i s.vsources (openFlagsOf s.ex)
  { ok := true, node_v := node_v, comp_i := comp_i,
    warnings := warningsOf solver_comp_i comp_i s.vsources,
    singular := false,
    comp_flags := finalFlagsOf comps s.vsources comp_i flags1,
    comp_branch_i := comp_branch_i }

/-- The circuit after a solver pass: every component went through the
(idempotent) `effective_resistance` write-back. -/
def clampCircuit (cir : Circuit) : Circuit :=
  ⟨cir.components.map clampComp⟩

/-- `solve_circuit`.  The result is paired with the updated circuit
(rheostat clamp write-backs); `none` models a raised
`ZeroDivisionError`. -/
def solve_circuit (cir : Circuit) : Option (SolveResult × Circuit) :=
  match assembleMNA cir with
  | .empty => some ({ ok := true }, cir)
  | .raised => none
  | .sys s =>
      match solve_linear s.A s.b with
      | none =>
          some ({ ok := false, singular := true, warnings := [.singular] },
            clampCircuit cir)
      | some sol => some (postProcess cir.components s sol, clampCircuit cir)

/-! ## Component metrics and goal-seek measurements -/

/-- Update the (first) component with the given identifier. -/
def updCompList (cid : String) (f : Component → Component) :
    List Component → List Component
  | [] => []
  | c :: t => if c.cid = cid then f c :: t else c :: updCompList cid f t

/-- Write `comp.props[key] = v` on the component with identifier `cid`. -/
def setProp (cir : Circuit) (cid key : String) (v : ℚ) : Circuit :=
  ⟨updCompList cid (fun c => { c with props := alSet c.props key v })
    cir.components⟩

/-- Read `comp.props.get(key)` of the component with identifier `cid`. -/
def getProp (cir : Circuit) (cid key : String) : Option ℚ :=
  (cir.getComp cid).bind (fun c => alGet c.props key)

/-- `component_metrics`: the metric map together with the updated
component (`effective_resistance` may clamp a rheostat); `none` models a
raised `ZeroDivisionError`. -/
def component_metrics (result : SolveResult) (comp : Component) :
    Option (List (String × ℚ) × Component) :=
  let va := nodeVGet result.node_v comp.a
  let vb := nodeVGet result.node_v comp.b
  let vab := qsub va vb
  let iab := (alGet result.comp_i comp.cid).getD 0
  let base := [("Va", va), ("Vb", vb), ("Vab", vab), ("Iab", iab),
    ("P", qmul vab iab)]
  match effective_resistance comp with
  | (.err, _) => none
  | (.opn, comp') => some (base, comp')
  | (.val r, comp') => some (base ++ [("R", r)], comp')

/-- The goal-seek measurement descriptor (`spec` dict), with the source's
defaults. -/
structure MeasureSpec where
  kind : String := "comp"
  node : Option Point := none
  abs : Bool := false
  cid : Option String := none
  field : String := "Iab"
  branch : Option String := none
deriving DecidableEq

/-- `_goal_measure`: `some (none, _)` is a missing measurement, the outer
`none` a raised `ZeroDivisionError`; the circuit is threaded because
`component_metrics` can clamp the measured component. -/
def goal_measure (result : SolveResult) (cir : Circuit) (spec : MeasureSpec) :
    Option (Option ℚ × Circuit) :=
  if spec.kind = "node" then
    match spec.node with
    | none => some (none, cir)
    | some n =>
        let v := nodeVGet result.node_v n
        some (some (if spec.abs then qabs v else v), cir)
  else
    match spec.cid with
    | none => some (none, cir)
    | some cid =>
        let short : Option ℚ :=
          match spec.branch with
          | some br =>
              if spec.field = "Iab" then
                alGet ((alGet result.comp_branch_i cid).getD []) br
              else none
          | none => none
        match short with
        | some v => some (some (if spec.abs then qabs v else v), cir)
        | none =>
            match cir.getComp cid with
            | none => some (none, cir)
            | some comp =>
                match component_metrics result comp with
                | none => none
                | some (m, comp') =>
                    let cir' : Circuit :=
                      ⟨updCompList cid (fun _ => comp') cir.components⟩
                    match alGet m spec.field with
                    | none => some (none, cir')
                    | some v => some (some (if spec.abs then qabs v else v), cir')

/-! ## Goal-seek -/

/-- `GoalSeekResult`. -/
structure GoalSeekResult where
  ok : Bool
  value : ℚ := 0
  achieved : ℚ := 0
  target : ℚ := 0
  error : ℚ := 0
  iterations : ℕ := 0
  message : String := ""
  history : List (ℚ × ℚ) := []
deriving DecidableEq

/-- The mutable state of one `goal_seek_parameter` call: the live circuit
and the evaluation memo keyed by the evaluated property value.  A cached
`none` is a failed evaluation (`(None, None)` in the source). -/
structure GsState where
  cir : Circuit
  cache : List (ℚ × Option (ℚ × ℚ)) := []
deriving DecidableEq

/-- `eval_err`: memoised evaluation of the error function.  On a cache
miss the property is written in place, the circuit re-solved, and the
measurement taken; rationals are always finite, so the source's
`math.isfinite` guards are vacuous.  The outer `none` models a raised
`ZeroDivisionError`. -/
def eval_err (varCid varProp : String) (target : ℚ) (measure : MeasureSpec)
    (rejectOC : Bool) (st : GsState) (x : ℚ) :
    Option (Option (ℚ × ℚ) × GsState) :=
  match alGet st.cache x with
  | some v => some (v, st)
  | none =>
      let cir1 := setProp st.cir varCid varProp x
      match solve_circuit cir1 with
      | none => none
      | some (res, cir2) =>
          if res.ok = false then some (none, ⟨cir2, alSet st.cache x none⟩)
          else if rejectOC ∧
              res.comp_flags.any (fun p => p.2 = "source_overcurrent") then
            some (none, ⟨cir2, alSet st.cache x none⟩)
          else
            match goal_measure res cir2 measure with
            | none => none
            | some (none, cir3) => some (none, ⟨cir3, alSet st.cache x none⟩)
            | some (some mv, cir3) =>
                some (some (qsub mv target, mv),
                  ⟨cir3, alSet st.cache x (some (qsub mv target, mv))⟩)

/-- The convergence test `is_done`. -/
def is_done (tolAbs tolRel target err achieved : ℚ) : Bool :=
  qabs err ≤ qmax tolAbs (qmul tolRel (qmax 1 (qmax (qabs target) (qabs achieved))))

/-- The sign test used to decide bracketing. -/
def bracketCond (eLo eHi : ℚ) : Bool :=
  eLo = 0 || eHi = 0 || (decide (eLo < 0) && decide (0 < eHi)) ||
    (decide (eHi < 0) && decide (0 < eLo))

/-- Outcome of the bracketing phase. -/
structure BracketOut where
  bracketed : Bool
  lo : ℚ
  hi : ℚ
  e_lo : ℚ
  e_hi : ℚ
  m_lo : ℚ
  m_hi : ℚ
  st : GsState
deriving DecidableEq

/-- The up-to-12-step bracketing expansion (lines 752-787).  Each round
first re-tests the sign condition, then widens the candidate interval
(geometrically for a positive resistance-like property, else linearly)
and re-evaluates; on exhaustion the original bounds and errors are kept. -/
def bracketLoop (E : GsState → ℚ → Option (Option (ℚ × ℚ) × GsState))
    (varProp : String) (orig : BracketOut) :
    ℕ → ℚ → ℚ → ℚ → ℚ → ℚ → ℚ → GsState → Option BracketOut
  | 0, _, _, _, _, _, _, st => some { orig with st := st }
  | fuel + 1, lo2, hi2, eL0, eH0, mL0, mH0, st =>
      if bracketCond eL0 eH0 then
        some ⟨true, lo2, hi2, eL0, eH0, mL0, mH0, st⟩
      else
        let (lo2', hi2') :=
          if 0 < lo2 ∧ 0 < hi2 ∧ asciiUpper varProp = "R" then
            (qmax (qdiv lo2 10) EPS12, qmul hi2 10)
          else
            let c := qdiv (qadd lo2 hi2) 2
            let w := qsub hi2 lo2
            let w := if qabs w < EPS15 then qmax (qabs c) 1 else w
            (qsub c (qmul 2 w), qadd c (qmul 2 w))
        match E st lo2' with
        | none => none
        | some (rLo, st1) =>
            match E st1 hi2' with
            | none => none
            | some (rHi, st2) =>
                let (eL1, mL1) :=
                  match rLo with | some p => p | none => (eL0, mL0)
                let (eH1, mH1) :=
                  match rHi with | some p => p | none => (eH0, mH0)
                bracketLoop E varProp orig fuel lo2' hi2' eL1 eH1 mL1 mH1 st2

/-- Best iterate so far (smallest `|error|`). -/
structure Best where
  x : ℚ
  m : ℚ
  e : ℚ
deriving DecidableEq

/-- Outcome of the main iteration loop. -/
inductive LoopOut
  | success (value achieved error : ℚ) (iterations : ℕ)
      (history : List (ℚ × ℚ)) (st : GsState)
  | failure (reason : String) (best : Best) (iterations : ℕ)
      (history : List (ℚ × ℚ)) (st : GsState)
  | raised
deriving DecidableEq

/-- The main bisection/secant loop (lines 802-864), with the iteration
budget as fuel. -/
def gsLoop (E : GsState → ℚ → Option (Option (ℚ × ℚ) × GsState))
    (useBisect : Bool) (lo hi tolAbs tolRel target : ℚ) :
    ℕ → ℕ → (ℚ × ℚ × ℚ) → (ℚ × ℚ × ℚ) → (ℚ × ℚ) → (ℚ × ℚ) →
    Best → List (ℚ × ℚ) → GsState → LoopOut
  | 0, it, _, _, _, _, best, hist, st => .failure "failed" best it hist st
  | fuel + 1, it, (x0, y0, m0), (x1, y1, m1), (a, fa), (b, fb), best, hist,
      st =>
      let it' := it + 1
      let best := if qabs y0 < qabs best.e then ⟨x0, m0, y0⟩ else best
      let best := if qabs y1 < qabs best.e then ⟨x1, m1, y1⟩ else best
      if useBisect then
        let mid := qdiv (qadd a b) 2
        match E st mid with
        | none => .raised
        | some (none, st1) =>
            .failure "evaluation failed during bisection" best it' hist st1
        | some (some (fm, mm), st1) =>
            let hist := hist ++ [(mid, mm)]
            let best := if qabs fm < qabs best.e then ⟨mid, mm, fm⟩ else best
            if is_done tolAbs tolRel target fm mm then
              .success mid mm fm it' hist st1
            else
              let (ab1, ab2) :=
                if fa = 0 then ((mid, fm), (b, fb))
                else if fb = 0 then ((a, fa), (mid, fm))
                else if (fa < 0 ∧ 0 < fm) ∨ (0 < fa ∧ fm < 0) then
                  ((a, fa), (mid, fm))
                else ((mid, fm), (b, fb))
              gsLoop E useBisect lo hi tolAbs tolRel target fuel it'
                (x0, y0, m0) (x1, y1, m1) ab1 ab2 best hist st1
      else
        if qsub y1 y0 = 0 then .failure "secant slope is zero" best it' hist st
        else
          let x2 := qsub x1 (qdiv (qmul y1 (qsub x1 x0)) (qsub y1 y0))
          let x2 := if x2 < lo then lo else x2
          let x2 := if hi < x2 then hi else x2
          let x2 :=
            if qabs (qsub x2 x1) ≤ qmax EPS15 (qmul EPS12 (qmax 1 (qabs x1)))
            then qdiv (qadd x0 x1) 2
            else x2
          match E st x2 with
          | none => .raised
          | some (none, st1) =>
              .failure "evaluation failed during secant" best it' hist st1
          | some (some (y2, m2), st1) =>
              let hist := hist ++ [(x2, m2)]
              let best := if qabs y2 < qabs best.e then ⟨x2, m2, y2⟩ else best
              if is_done tolAbs tolRel target y2 m2 then
                .success x2 m2 y2 it' hist st1
              else
                gsLoop E useBisect lo hi tolAbs tolRel target fuel it'
                  (x1, y1, m1) (x2, y2, m2) (a, fa) (b, fb) best hist st1

/-- `goal_seek_parameter`, exposing the final memo state; `none` models a
raised `ZeroDivisionError`. -/
def goal_seek_parameter_aux (cir : Circuit) (varCid varProp : String)
    (target : ℚ) (measure : MeasureSpec) (lo hi : ℚ)
    (tolAbs : ℚ := mkRat 1 1000000000) (tolRel : ℚ := MILLIONTH) (maxIter : ℕ := 60)
    (method : String := "auto") (rejectOC : Bool := false) :
    Option (GoalSeekResult × GsState) :=
  match cir.getComp varCid with
  | none =>
      some ({ ok := false, message := "unknown var_cid: " ++ varCid },
        ⟨cir, []⟩)
  | some comp =>
    if lo = hi then some ({ ok := false, message := "lo == hi" }, ⟨cir, []⟩)
    else
      let (lo, hi) := if hi < lo then (hi, lo) else (lo, hi)
      let prev := (alGet comp.props varProp).getD 0
      let E := eval_err varCid varProp target measure rejectOC
      match E ⟨cir, []⟩ lo with
      | none => none
      | some (rLo, st1) =>
      match E st1 hi with
      | none => none
      | some (rHi, st2) =>
      let substep :
          Option ((ℚ × Option (ℚ × ℚ)) × (ℚ × Option (ℚ × ℚ)) × GsState) :=
        if method = "auto" ∧ (rLo = none ∨ rHi = none) then
          let mid0 := qdiv (qadd lo hi) 2
          match E st2 mid0 with
          | none => none
          | some (rMid, st3) =>
              match rMid with
              | none => some ((lo, rLo), (hi, rHi), st3)
              | some em =>
                  if rLo = none then some ((mid0, some em), (hi, rHi), st3)
                  else if rHi = none then some ((lo, rLo), (mid0, some em), st3)
                  else some ((lo, rLo), (hi, rHi), st3)
        else some ((lo, rLo), (hi, rHi), st2)
      match substep with
      | none => none
      | some ((lo, rLo), (hi, rHi), st3) =>
      match rLo, rHi with
      | some (e_lo, m_lo), some (e_hi, m_hi) =>
          let hist0 := [(lo, m_lo), (hi, m_hi)]
          let bracketed0 := bracketCond e_lo e_hi
          let bout : Option BracketOut :=
            if method = "auto" ∧ bracketed0 = false then
              bracketLoop E varProp ⟨false, lo, hi, e_lo, e_hi, m_lo, m_hi, st3⟩
                12 lo hi e_lo e_hi m_lo m_hi st3
            else some ⟨bracketed0, lo, hi, e_lo, e_hi, m_lo, m_hi, st3⟩
          match bout with
          | none => none
          | some bo =>
              let useBisect :=
                (method = "auto" ∨ method = "bisect") ∧ bo.bracketed = true
              match gsLoop E useBisect bo.lo bo.hi tolAbs tolRel target
                  maxIter 0 (bo.lo, bo.e_lo, bo.m_lo) (bo.hi, bo.e_hi, bo.m_hi)
                  (bo.lo, bo.e_lo) (bo.hi, bo.e_hi) ⟨bo.lo, bo.m_lo, bo.e_lo⟩
                  hist0 bo.st with
              | .raised => none
              | .success v m e itn hist st' =>
                  some ({ ok := true, value := v, achieved := m,
                          target := target, error := e, iterations := itn,
                          message := "ok", history := hist }, st')
              | .failure reason best itn hist st' =>
                  let msg :=
                    if method = "auto" ∧ bo.bracketed = false then
                      "failed: not bracketed"
                    else reason
                  some ({ ok := false, value := best.x, achieved := best.m,
                          target := target, error := best.e,
                          iterations := itn, message := msg,
                          history := hist },
                    ⟨setProp st'.cir varCid varProp prev, st'.cache⟩)
      | _, _ =>
          some ({ ok := false, message := "evaluation failed at bounds" },
            ⟨setProp st3.cir varCid varProp prev, st3.cache⟩)

/-- `goal_seek_parameter` as the caller sees it: the result and the
mutated circuit. -/
def goal_seek_parameter (cir : Circuit) (varCid varProp : String)
    (target : ℚ) (measure : MeasureSpec) (lo hi : ℚ)
    (tolAbs : ℚ := mkRat 1 1000000000) (tolRel : ℚ := MILLIONTH) (maxIter : ℕ := 60)
    (method : String := "auto") (rejectOC : Bool := false) :
    Option (GoalSeekResult × Circuit) :=
  (goal_seek_parameter_aux cir varCid varProp target measure lo hi tolAbs
    tolRel maxIter method rejectOC).map (fun p => (p.1, p.2.cir))

/-! ## Concrete circuits used as witnesses and counterexamples -/

/-- A circuit holding a single 1 Ω resistor (and no socket). -/
def oneResCircuit : Circuit :=
  ⟨[⟨"r1", "resistor", (0, 0), (1, 0), [("R", 1)], []⟩]⟩

/-- Two electrically isolated resistors: the conductance block of the
second is singular. -/
def twoIsoCircuit : Circuit :=
  ⟨[⟨"r1", "resistor", (0, 0), (1, 0), [("R", 1)], []⟩,
    ⟨"r2", "resistor", (5, 5), (6, 5), [("R", 1)], []⟩]⟩

/-- The MNA system `assembleMNA` produces for `twoIsoCircuit`. -/
def twoIsoSys : MnaSystem :=
  ⟨⟨[⟨"r1", "resistor", (0, 0), (1, 0), [("R", 1)], []⟩,
     ⟨"r2", "resistor", (5, 5), (6, 5), [("R", 1)], []⟩],
    [("r1", "r1"), ("r2", "r2")], [("r1", "main"), ("r2", "main")]⟩,
   (0, 0), [((1, 0), 0), ((5, 5), 1), ((6, 5), 2)], [],
   [[1, 0, 0], [0, 1, -1], [0, -1, 1]], [0, 0, 0]⟩

/-- A 4 V socket in parallel with a 2 Ω resistor. -/
def sockResCircuit : Circuit :=
  ⟨[⟨"s", "socket", (0, 0), (0, 1), [("V", 4)], []⟩,
    ⟨"r", "resistor", (0, 0), (0, 1), [("R", 2)], []⟩]⟩

/-- A 5 V socket behind an open SPST switch: the source delivers no
current. -/
def quietCircuit : Circuit :=
  ⟨[⟨"s", "socket", (0, 0), (0, 1), [("V", 5)], []⟩,
    ⟨"w", "switch_spst", (0, 0), (0, 1), [("state", 0)], []⟩]⟩

/-- The solve result of `quietCircuit`. -/
def quietSolved : SolveResult :=
  { ok := true, node_v := [((0, 1), 0), ((0, 0), 5)],
    comp_i := [("s", 0), ("w", 0)], warnings := [.openLoop],
    singular := false, comp_flags := [("w", "open")],
    comp_branch_i := [("s", [("main", 0)]), ("w", [("main", 0)])] }

/-- A 4 V socket in parallel with a rheostat whose `R` starts far above
`Rmax` (the first solve clamps it to 50). -/
def rheoCircuit : Circuit :=
  ⟨[⟨"s", "socket", (0, 0), (0, 1), [("V", 4)], []⟩,
    ⟨"h", "rheostat", (0, 0), (0, 1),
      [("R", 500), ("Rmin", 10), ("Rmax", 50)], []⟩]⟩

/-- A 50 Ω resistor alone; the goal-seek scenarios vary its `R`. -/
def gsResCircuit : Circuit :=
  ⟨[⟨"r1", "resistor", (0, 0), (1, 0), [("R", 50)], []⟩]⟩

/-- A resistor with an empty property map. -/
def gsEmptyCircuit : Circuit :=
  ⟨[⟨"r1", "resistor", (0, 0), (1, 0), [], []⟩]⟩

/-- Measurement: the effective resistance of `r1`. -/
def measureR : MeasureSpec := { kind := "comp", cid := some "r1", field := "R" }

/-- A measurement descriptor with no component identifier: every
evaluation fails. -/
def measureNone : MeasureSpec := { kind := "comp", cid := none }

/-- A galvanometer with `Rcoil = 0` and a configured 1 A range: the
parallel-combination computation divides by zero. -/
def galvBad : Component :=
  ⟨"g", "galvanometer", (0, 0), (1, 0), [("Rcoil", 0)], [("ranges_I", "1")]⟩

/-- A rheostat whose `R` lies above `Rmax`. -/
def rheoComp : Component :=
  ⟨"h", "rheostat", (0, 0), (0, 1),
    [("R", 500), ("Rmin", 10), ("Rmax", 50)], []⟩

/-- A bare 50 Ω resistor. -/
def res50 : Component := ⟨"r1", "resistor", (0, 0), (1, 0), [("R", 50)], []⟩

/-- The `R` property a rheostat clamp starts from. -/
def rheoR (comp : Component) : ℚ := (alGet comp.props "R").getD 100

/-- The lower clamp bound of a rheostat (after the swap for inverted
bounds). -/
def rheoLo (comp : Component) : ℚ :=
  min ((alGet comp.props "Rmin").getD 0)
    ((alGet comp.props "Rmax").getD (max (rheoR comp) 100))

/-- The upper clamp bound of a rheostat. -/
def rheoHi (comp : Component) : ℚ :=
  max ((alGet comp.props "Rmin").getD 0)
    ((alGet comp.props "Rmax").getD (max (rheoR comp) 100))

/-- The history used to show that `record` keeps the redo stack when the
snapshot equals the top of the undo stack. -/
def dupHistory : CircuitHistory :=
  ⟨200, [oneResCircuit.to_json], [oneResCircuit.to_json]⟩

/-- The `(parent, label)` key of every surrogate registered in an
expansion; identifiers produced by the public API keep these pairwise
distinct. -/
def branchKeys (ex : Expansion) : List (String × String) :=
  ex.solver_parent.map (fun e => (e.2, (alGet ex.solver_label e.1).getD "main"))

/-- The MNA system assembled for `sockResCircuit`. -/
def sockResSys : MnaSystem :=
  ⟨⟨[⟨"s", "socket", (0, 0), (0, 1), [("V", 4)], []⟩,
     ⟨"r", "resistor", (0, 0), (0, 1), [("R", 2)], []⟩],
    [("s", "s"), ("r", "r")], [("s", "main"), ("r", "main")]⟩,
   (0, 1), [((0, 0), 0)],
   [⟨"s", "socket", (0, 0), (0, 1), [("V", 4)], []⟩],
   [[mkRat 1 2, 1], [1, 0]], [0, 4]⟩

/-- The solve result of `sockResCircuit`. -/
def sockResSolved : SolveResult :=
  { ok := true, node_v := [((0, 1), 0), ((0, 0), 4)],
    comp_i := [("s", qneg 2), ("r", 2)], warnings := [],
    singular := false, comp_flags := [],
    comp_branch_i := [("s", [("main", qneg 2)]), ("r", [("main", 2)])] }

/-- The solver components contributed by one original component. -/
def expandPieces (c : Component) : List Component :=
  (surrogatesOf c).map (fun p => p.1)

/-- A lone rheostat whose `R` starts above `Rmax`; the first solve clamps
it. -/
def rheoSolo : Circuit :=
  ⟨[⟨"h", "rheostat", (0, 0), (0, 1),
    [("R", 500), ("Rmin", 10), ("Rmax", 50)], []⟩]⟩

/-- `rheoSolo` after the clamp write-back of a solver pass. -/
def rheoSoloClamped : Circuit :=
  ⟨[⟨"h", "rheostat", (0, 0), (0, 1),
    [("R", 50), ("Rmin", 10), ("Rmax", 50)], []⟩]⟩

/-- The solve result of `rheoSolo` (no source: every voltage and current
is 0). -/
def rheoSoloRes : SolveResult :=
  { ok := true, node_v := [((0, 0), 0), ((0, 1), 0)], comp_i := [("h", 0)],
    warnings := [], singular := false, comp_flags := [],
    comp_branch_i := [("h", [("main", 0)])] }

/-- The rheostat clamp value `max(min(R, hi), lo)` used by
`effective_resistance`. -/
def rheoClamp (c : Component) : ℚ :=
  max (min (rheoR c) (rheoHi c)) (rheoLo c)

/-- The MNA system assembled from the clamped circuit: only the expanded
component list changes, and only by `clampComp`. -/
def clampSys (s : MnaSystem) : MnaSystem :=
  ⟨⟨s.ex.expanded.map clampComp, s.ex.solver_parent, s.ex.solver_label⟩,
   s.ground, s.nodeIndex, s.vsources, s.A, s.b⟩

/-- The goal-seek state a loop outcome carries (`none` for a raised
exception). -/
def loopSt : LoopOut → Option GsState
  | .success _ _ _ _ _ st => some st
  | .failure _ _ _ _ st => some st
  | .raised => none

/-- One circuit evolves from another without touching the tracked
component: the component stays present, and if it is not a rheostat it is
unchanged.  Every circuit update of an evaluation (`solve_circuit` clamp,
`goal_measure` write-back) tracks. -/
def tracks (varCid : String) (c0 cX : Circuit) : Prop :=
  ∀ comp, c0.getComp varCid = some comp →
    (cX.getComp varCid).isSome ∧
      (comp.ctype ≠ "rheostat" → cX.getComp varCid = some comp)

/-- The goal-seek loop invariant: the variable component is present and
not a rheostat, and its current property value is a key of the memo
cache (so it was set by some evaluation). -/
def gsInv (varCid varProp : String) (st : GsState) : Prop :=
  ∃ c, st.cir.getComp varCid = some c ∧ c.ctype ≠ "rheostat" ∧
    ∃ x, alGet c.props varProp = some x ∧ (alGet st.cache x).isSome

/-- The failing goal-seek call of the C3 witness (it restores `R`). -/
def gsC3P : GoalSeekResult × Circuit :=
  (goal_seek_parameter gsResCircuit "r1" "R" 1 measureNone 1 2).getD
    ({ ok := false }, gsResCircuit)

/-- The succeeding goal-seek call of the C4 witness (one bisection step
converges). -/
def gsC4P : GoalSeekResult × GsState :=
  (goal_seek_parameter_aux gsResCircuit "r1" "R" (mkRat 15 2) measureR 5
    10).getD ({ ok := false }, ⟨gsResCircuit, []⟩)

/-! ## The kernel-friendly operations agree with the library ones -/

theorem qmax_eq (a b : ℚ) : qmax a b = max a b := (max_def a b).symm

theorem qmin_eq (a b : ℚ) : qmin a b = min a b := (min_def a b).symm

theorem qneg_eq (a : ℚ) : qneg a = -a := by
  rw [qneg, Rat.mkRat_eq_div, Int.cast_neg, neg_div, Rat.num_div_den]

theorem qadd_eq (a b : ℚ) : qadd a b = a + b := by
  have ha : ((a.den : ℚ)) ≠ 0 := Nat.cast_ne_zero.2 a.den_nz
  have hb : ((b.den : ℚ)) ≠ 0 := Nat.cast_ne_zero.2 b.den_nz
  rw [qadd, Rat.mkRat_eq_div]
  push_cast
  conv_rhs => rw [← Rat.num_div_den a, ← Rat.num_div_den b]
  rw [div_add_div _ _ ha hb]
  ring_nf

theorem qsub_eq (a b : ℚ) : qsub a b = a - b := by
  rw [qsub, qadd_eq, qneg_eq, sub_eq_add_neg]

theorem qmul_eq (a b : ℚ) : qmul a b = a * b := by
  have ha : ((a.den : ℚ)) ≠ 0 := Nat.cast_ne_zero.2 a.den_nz
  have hb : ((b.den : ℚ)) ≠ 0 := Nat.cast_ne_zero.2 b.den_nz
  rw [qmul, Rat.mkRat_eq_div]
  push_cast
  conv_rhs => rw [← Rat.num_div_den a, ← Rat.num_div_den b]
  rw [div_mul_div_comm]

theorem qdiv_eq (a b : ℚ) : qdiv a b = a / b := by
  have ha : ((a.den : ℚ)) ≠ 0 := Nat.cast_ne_zero.2 a.den_nz
  rcases eq_or_ne b 0 with hb | hb
  · subst hb
    rw [qdiv, div_zero]
    simp [Rat.divInt_eq_div]
  · have hbn : ((b.num : ℚ)) ≠ 0 := by
      exact_mod_cast Rat.num_ne_zero.2 hb
    have hbd : ((b.den : ℚ)) ≠ 0 := Nat.cast_ne_zero.2 b.den_nz
    rw [qdiv, Rat.divInt_eq_div]
    push_cast
    conv_rhs => rw [← Rat.num_div_den a, ← Rat.num_div_den b]
    field_simp

theorem qabs_eq (a : ℚ) : qabs a = |a| := by
  unfold qabs
  split
  · next h =>
      rw [qneg_eq]
      exact (abs_of_neg (by exact_mod_cast Rat.num_neg.1 h)).symm
  · next h =>
      exact (abs_of_nonneg (by exact_mod_cast Rat.num_nonneg.1 (not_lt.1 h))).symm

theorem qofZ_eq (z : ℤ) : qofZ z = (z : ℚ) := by
  rw [qofZ, Rat.mkRat_eq_div, Nat.cast_one, div_one]

/-! ## Association-list lemmas -/

theorem alGet_alSet_self {α β : Type} [DecidableEq α]
    (l : List (α × β)) (k : α) (v : β) : alGet (alSet l k v) k = some v := by
  induction l with
  | nil => simp [alSet, alGet]
  | cons h t ih =>
      by_cases hk : h.1 = k
      · simp [alSet, hk, alGet]
      · simpa [alSet, hk, alGet] using ih

theorem alGet_alSet_ne {α β : Type} [DecidableEq α]
    (l : List (α × β)) (k k' : α) (v : β) (hne : k ≠ k') :
    alGet (alSet l k v) k' = alGet l k' := by
  induction l with
  | nil => simp [alSet, alGet, hne]
  | cons h t ih =>
      by_cases hk : h.1 = k
      · simp [alSet, hk, alGet, hne]
      · by_cases hk' : h.1 = k'
        · simp [alSet, hk, alGet, hk', hne.symm]
        · simpa [alSet, hk, alGet, hk'] using ih

theorem alSet_fresh {α β : Type} [DecidableEq α]
    (l : List (α × β)) (k : α) (v : β) (h : alGet l k = none) :
    alSet l k v = l ++ [(k, v)] := by
  induction l with
  | nil => simp [alSet]
  | cons hd t ih =>
      by_cases hk : hd.1 = k
      · simp [alGet, hk] at h
      · simp only [alGet, hk, if_neg] at h
        simp [alSet, hk, ih h]

theorem alGet_append_left {α β : Type} [DecidableEq α]
    (l1 l2 : List (α × β)) (k : α) (v : β) (h : alGet l1 k = some v) :
    alGet (l1 ++ l2) k = some v := by
  induction l1 with
  | nil => simp [alGet] at h
  | cons hd t ih =>
      by_cases hk : hd.1 = k
      · simp_all [alGet, hk]
      · simp only [alGet, hk, if_neg] at h ⊢
        simp_all [List.cons_append, alGet, hk]

theorem alGet_append_right {α β : Type} [DecidableEq α]
    (l1 l2 : List (α × β)) (k : α) (h : alGet l1 k = none) :
    alGet (l1 ++ l2) k = alGet l2 k := by
  induction l1 with
  | nil => simp
  | cons hd t ih =>
      by_cases hk : hd.1 = k
      · simp [alGet, hk] at h
      · simp only [alGet, hk, if_neg] at h ⊢
        simp_all [List.cons_append, alGet, hk]

/-- Folding fresh `alSet` writes keyed by `key` appends the written pairs
in order. -/
theorem foldl_alSet_eq {α γ β : Type} [DecidableEq α]
    (key : γ → α) (f : γ → β) :
    ∀ (cs : List γ) (acc : List (α × β)),
      (cs.map key).Nodup →
      (∀ g ∈ cs, alGet acc (key g) = none) →
      cs.foldl (fun a g => alSet a (key g) (f g)) acc
        = acc ++ cs.map (fun g => (key g, f g)) := by
  intro cs
  induction cs with
  | nil => simp
  | cons c t ih =>
      intro acc hnd hfresh
      have hfc : alGet acc (key c) = none := hfresh c (by simp)
      rw [List.foldl_cons, alSet_fresh acc (key c) (f c) hfc]
      rw [ih (acc ++ [(key c, f c)]) (by simpa using hnd.of_cons)]
      · simp
      · intro g hg
        have hne : key g ≠ key c := by
          intro hEq
          have := hnd.not_mem (a := key c)
          exact this (by simpa [← hEq] using List.mem_map_of_mem key hg)
        rw [alGet_append_right _ _ _ (hfresh g (by simp [hg]))]
        simp [alGet, hne.symm]

/-- Looking a key up in the listed pairs of distinct keys. -/
theorem alGet_map_pairs {α γ β : Type} [DecidableEq α]
    (key : γ → α) (f : γ → β) :
    ∀ (cs : List γ) (g : γ), (cs.map key).Nodup → g ∈ cs →
      alGet (cs.map (fun g => (key g, f g))) (key g) = some (f g) := by
  intro cs
  induction cs with
  | nil => simp
  | cons c t ih =>
      intro g hnd hg
      rcases List.mem_cons.1 hg with h | h
      · subst h; simp [alGet]
      · have hne : key c ≠ key g := by
          intro hEq
          exact hnd.not_mem (a := key c)
            (by simpa [hEq] using List.mem_map_of_mem key h)
        simp only [List.map_cons, alGet, hne, if_neg, reduceIte]
        exact ih g hnd.of_cons h

/-! ## C5 — `record` and the redo stack -/

/-- C5 counterexample: when the recorded snapshot equals the top of the
undo stack, `record` returns immediately and the redo stack survives, so
`can_redo()` stays true — the claim says it must be false after every
`record` call. -/
theorem record_equal_top_keeps_redo :
    (dupHistory.record oneResCircuit).can_redo = true := by decide

/-- C5 (amended): `record` clears the redo stack exactly when it pushes,
i.e. when the undo stack is empty or its top differs from the snapshot;
after such a call `can_redo()` is false. -/
theorem record_push_clears_redo (h : CircuitHistory) (cir : Circuit)
    (hne : h.undo_stack = [] ∨ h.undo_stack.getLast? ≠ some cir.to_json) :
    (h.record cir).can_redo = false := by
  have hguard : ¬(h.undo_stack ≠ [] ∧ h.undo_stack.getLast? = some cir.to_json) := by
    rcases hne with h1 | h2
    · intro hc; exact hc.1 h1
    · intro hc; exact h2 hc.2
  unfold CircuitHistory.record
  rw [if_neg hguard]
  simp [CircuitHistory.can_redo]

/-- Witness for the amended C5 statement at a concrete history. -/
theorem record_push_clears_redo_witness :
    (CircuitHistory.record ⟨200, [], [oneResCircuit.to_json]⟩ oneResCircuit).can_redo
      = false :=
  record_push_clears_redo _ _ (Or.inl rfl)

/-! ## C7 — JSON round-trip -/

theorem mkComp_mkJson (c : Component) : mkComp (mkJson c) = c := by
  cases c with
  | mk cid ctype a b props meta => cases a; cases b; rfl

/-- C7: for a circuit with pairwise distinct identifiers (a Python dict
guarantees this), `from_json (to_json c)` rebuilds the same circuit
component by component. -/
theorem from_json_to_json (cir : Circuit)
    (h : (cir.components.map (fun c => c.cid)).Nodup) :
    Circuit.from_json cir.to_json = cir := by
  unfold Circuit.from_json Circuit.to_json
  rw [List.foldl_map]
  have hkeys : ((cir.components.map (fun c => (mkJson c).cid)).Nodup) := by
    simpa [mkJson] using h
  rw [foldl_alSet_eq (γ := Component) (fun c => (mkJson c).cid)
    (fun c => mkComp (mkJson c)) cir.components [] hkeys (by simp [alGet])]
  simp [mkComp_mkJson, Function.comp_def]

/-- Witness for C7 on a concrete two-component circuit. -/
theorem from_json_to_json_witness :
    Circuit.from_json sockResCircuit.to_json = sockResCircuit :=
  from_json_to_json sockResCircuit (by decide)

/-! ## C8 — rheostat clamping -/

/-- C8: for a rheostat, `effective_resistance` clamps `R` into the
(possibly swapped) `[Rmin, Rmax]` interval, writes the clamped value back
into the property map, and returns `max(clamped R, 1e-6)`. -/
theorem effective_resistance_rheostat (comp : Component)
    (h : comp.ctype = "rheostat") :
    ∃ R', rheoLo comp ≤ R' ∧ R' ≤ rheoHi comp ∧
      (rheoLo comp ≤ rheoR comp → rheoR comp ≤ rheoHi comp → R' = rheoR comp) ∧
      (rheoR comp < rheoLo comp → R' = rheoLo comp) ∧
      (rheoHi comp < rheoR comp → R' = rheoHi comp) ∧
      effective_resistance comp =
        (.val (max R' MILLIONTH),
          { comp with props := alSet comp.props "R" R' }) := by
  set R := (alGet comp.props "R").getD 100 with hR
  set Rmin := (alGet comp.props "Rmin").getD 0 with hRmin
  set Rmax := (alGet comp.props "Rmax").getD (max R 100) with hRmax
  have hlo : rheoLo comp = min Rmin Rmax := rfl
  have hhi : rheoHi comp = max Rmin Rmax := rfl
  have hRR : rheoR comp = R := rfl
  have hle : rheoLo comp ≤ rheoHi comp := min_le_max
  refine ⟨max (min R (rheoHi comp)) (rheoLo comp), le_max_right _ _, ?_, ?_, ?_, ?_, ?_⟩
  · exact max_le (le_trans (min_le_right _ _) le_rfl) hle
  · intro h1 h2
    rw [hRR] at h1 h2
    rw [min_eq_left h2, max_eq_left h1]
    exact hRR.symm
  · intro h1
    rw [hRR] at h1
    rw [min_eq_left (le_trans h1.le hle), max_eq_right h1.le]
  · intro h1
    rw [hRR] at h1
    rw [min_eq_right h1.le, max_eq_left hle]
  · have h1 : (if Rmax < Rmin then Rmax else Rmin) = rheoLo comp := by
      rw [hlo]
      rcases lt_or_le Rmax Rmin with hc | hc
      · rw [if_pos hc, min_def, if_neg (not_le.2 hc)]
      · rw [if_neg (not_lt.2 hc), min_def, if_pos hc]
    have h2 : (if Rmax < Rmin then Rmin else Rmax) = rheoHi comp := by
      rw [hhi]
      rcases lt_or_le Rmax Rmin with hc | hc
      · rw [if_pos hc, max_def, if_neg (not_le.2 hc)]
      · rw [if_neg (not_lt.2 hc), max_def, if_pos hc]
    unfold effective_resistance
    simp only [h]
    rw [if_neg (by decide : ¬("rheostat" : String) = "wire"),
      if_neg (by decide : ¬("rheostat" : String) = "resistor"),
      if_neg (by decide : ¬("rheostat" : String) = "bulb"),
      if_pos trivial]
    simp only [qmax_eq, qmin_eq]
    rw [← hR, ← hRmin, ← hRmax, h1, h2]

/-- Witness for C8 at a rheostat whose `R` exceeds `Rmax`. -/
theorem effective_resistance_rheostat_witness :
    rheoComp.ctype = "rheostat" ∧
      (∃ R', rheoLo rheoComp ≤ R' ∧ R' ≤ rheoHi rheoComp ∧
        (rheoLo rheoComp ≤ rheoR rheoComp → rheoR rheoComp ≤ rheoHi rheoComp →
          R' = rheoR rheoComp) ∧
        (rheoR rheoComp < rheoLo rheoComp → R' = rheoLo rheoComp) ∧
        (rheoHi rheoComp < rheoR rheoComp → R' = rheoHi rheoComp) ∧
        effective_resistance rheoComp =
          (.val (max R' MILLIONTH),
            { rheoComp with props := alSet rheoComp.props "R" R' })) :=
  ⟨rfl, effective_resistance_rheostat rheoComp rfl⟩

/-! ## C10 — resistance floor and the galvanometer division -/

theorem qmax_right_le (a b : ℚ) : b ≤ qmax a b := by
  rw [qmax_eq]; exact le_max_right a b

theorem meter_effective_resistance_bound (comp : Component) (r : ℚ)
    (h : meter_effective_resistance comp = .val r) : R_NEAR_SHORT ≤ r := by
  unfold meter_effective_resistance at h
  dsimp only at h
  repeat' split at h
  all_goals cases h
  all_goals first
    | exact qmax_right_le _ _
    | norm_num [R_NEAR_SHORT, BIG12]

set_option maxHeartbeats 2000000 in
/-- C10 (amended): whenever `effective_resistance` returns a finite value
(rather than "open" or raising a `ZeroDivisionError`), that value is at
least `R_NEAR_SHORT = 1e-9`, so the conductance stamping never divides by
zero and stamps only finite entries. -/
theorem effective_resistance_lower_bound (comp : Component) (r : ℚ)
    (h : (effective_resistance comp).1 = .val r) : R_NEAR_SHORT ≤ r := by
  have hMil : R_NEAR_SHORT ≤ MILLIONTH := by norm_num [R_NEAR_SHORT, MILLIONTH]
  unfold effective_resistance at h
  dsimp only at h
  repeat' split at h
  all_goals first
    | exact meter_effective_resistance_bound _ _ h
    | (cases h <;>
        first
          | exact le_rfl
          | exact le_trans hMil (qmax_right_le _ _)
          | (unfold bulb_resistance
             split <;>
               first
                 | (norm_num [R_NEAR_SHORT, BIG12]; done)
                 | exact le_trans hMil (qmax_right_le _ _)))

/-- C10 counterexample / failing input: a galvanometer with `Rcoil = 0`
and a configured range above `Ifs` makes the parallel-combination
computation divide by zero (`EffRes.err`, a raised `ZeroDivisionError` in
the source), so `effective_resistance` neither returns "open" nor a
finite value there. -/
theorem effective_resistance_galv_raises :
    (effective_resistance galvBad).1 = EffRes.err := by decide

/-- Witness for the amended C10 statement at a plain resistor. -/
theorem effective_resistance_lower_bound_witness :
    (effective_resistance res50).1 = EffRes.val 50 ∧ R_NEAR_SHORT ≤ 50 :=
  ⟨by decide, effective_resistance_lower_bound res50 50 (by decide)⟩

/-! ## C2 — singular systems -/

/-- C2: when Gaussian elimination of the assembled MNA system finds no
usable pivot in some column (`solve_linear` returns `None`, i.e. every
candidate pivot there is below `1e-12`), `solve_circuit` returns
`ok=false`, `singular=true`, one warning, and empty node-voltage,
component-current, flag and branch maps. -/
theorem solve_circuit_singular (cir : Circuit) (s : MnaSystem)
    (ha : assembleMNA cir = .sys s) (hl : solve_linear s.A s.b = none) :
    solve_circuit cir =
      some ({ ok := false, singular := true, warnings := [.singular] },
        clampCircuit cir) := by
  unfold solve_circuit
  rw [ha]
  simp only [hl]

/-- Witness for C2: two electrically isolated resistors give a singular
conductance block. -/
theorem solve_circuit_singular_witness :
    solve_circuit twoIsoCircuit =
      some ({ ok := false, singular := true, warnings := [.singular] },
        clampCircuit twoIsoCircuit) :=
  solve_circuit_singular twoIsoCircuit twoIsoSys (by decide) (by decide)

/-! ## Expansion structure lemmas -/

/-- The solver components contributed by a single original component. -/
theorem push_foldl_expanded (cid : String) :
    ∀ (ps : List (Component × String)) (st : Expansion),
      ((ps.foldl (fun acc p => acc.push p.1 cid p.2) st)).expanded
        = st.expanded ++ ps.map (fun p => p.1) := by
  intro ps
  induction ps with
  | nil => intro st; simp
  | cons p t ih =>
      intro st
      rw [List.foldl_cons, ih]
      simp [Expansion.push]

theorem expandOne_expanded (st : Expansion) (c : Component) :
    (expandOne st c).expanded = st.expanded ++ expandPieces c := by
  rw [expandOne, push_foldl_expanded, expandPieces]

theorem expandPieces_filter_socket (c : Component) :
    (expandPieces c).filter (fun x => x.ctype = "socket")
      = if c.ctype = "socket" then [c] else [] := by
  unfold expandPieces surrogatesOf
  repeat' split
  all_goals simp_all
  all_goals
    intro a x hmem
    split at hmem <;> simp_all

theorem expand_filter_socket (comps : List Component) :
    (expandComponents comps).expanded.filter (fun c => c.ctype = "socket")
      = comps.filter (fun c => c.ctype = "socket") := by
  suffices h : ∀ st : Expansion,
      ((comps.foldl expandOne st).expanded.filter (fun c => c.ctype = "socket"))
        = st.expanded.filter (fun c => c.ctype = "socket") ++
            comps.filter (fun c => c.ctype = "socket") by
    simpa [expandComponents] using h ⟨[], [], []⟩
  induction comps with
  | nil => intro st; simp
  | cons c t ih =>
      intro st
      rw [List.foldl_cons, ih (expandOne st c), expandOne_expanded,
        List.filter_append, expandPieces_filter_socket]
      by_cases hc : c.ctype = "socket" <;>
        simp [hc, List.filter_cons, List.append_assoc]

theorem assembleMNA_sys (cir : Circuit) (s : MnaSystem)
    (h : assembleMNA cir = .sys s) :
    s.ex = expandComponents cir.components ∧
      s.vsources =
        (expandComponents cir.components).expanded.filter
          (fun c => c.ctype = "socket") := by
  unfold assembleMNA at h
  dsimp only at h
  split at h
  · cases h
  · split at h
    · cases h
    · injection h with h'
      subst h'
      exact ⟨rfl, rfl⟩

theorem assembleMNA_empty_no_socket (cir : Circuit)
    (h : assembleMNA cir = .empty) :
    cir.components.filter (fun c => c.ctype = "socket") = [] := by
  unfold assembleMNA at h
  dsimp only at h
  split at h
  · next hN =>
      rw [← expand_filter_socket]
      exact List.length_eq_zero.1 (Nat.add_eq_zero.1 hN).2
  · split at h <;> cases h

/-! ## C9 — the quiet-loop warning -/

/-- C9 counterexample: a circuit with no socket at all solves with
`ok=true`, the claim's hypothesis "all sockets carry `|I| < 1e-6`" is
vacuously true, yet no "likely open loop" warning is emitted (the source
requires a non-empty source list). -/
theorem quiet_warning_needs_socket_cex :
    (∀ comp ∈ oneResCircuit.components, comp.ctype ≠ "socket") ∧
      (solve_circuit oneResCircuit).map (fun p => (p.1.ok, p.1.warnings))
        = some (true, []) := by
  constructor
  · decide
  · decide

/-- C9 (amended): if the circuit contains at least one socket, the solve
succeeds, and every socket's reported current is below 1 µA in magnitude,
then the "likely open loop" warning is in the warning list. -/
theorem solve_quiet_loop_warning (cir : Circuit) (res : SolveResult)
    (c' : Circuit) (hs : solve_circuit cir = some (res, c'))
    (hok : res.ok = true)
    (hsock : ∃ comp ∈ cir.components, comp.ctype = "socket")
    (hsmall : ∀ comp ∈ cir.components, comp.ctype = "socket" →
      |(alGet res.comp_i comp.cid).getD 0| < MILLIONTH) :
    Warning.openLoop ∈ res.warnings := by
  unfold solve_circuit at hs
  cases hass : assembleMNA cir with
  | empty =>
      have h0 := assembleMNA_empty_no_socket cir hass
      obtain ⟨comp, hmem, hct⟩ := hsock
      have : comp ∈ cir.components.filter (fun c => c.ctype = "socket") :=
        List.mem_filter.2 ⟨hmem, by simp [hct]⟩
      rw [h0] at this
      cases this
  | raised => simp only [hass] at hs; exact Option.noConfusion hs
  | sys s =>
      simp only [hass] at hs
      have hvs := (assembleMNA_sys cir s hass).2
      rcases hlin : solve_linear s.A s.b with _ | sol
      · simp only [hlin] at hs
        injection hs with h2
        rw [Prod.mk.injEq] at h2
        rw [← h2.1] at hok
        simp at hok
      · simp only [hlin] at hs
        injection hs with h2
        rw [Prod.mk.injEq] at h2
        obtain ⟨hr, _⟩ := h2
        subst hr
        show Warning.openLoop ∈
          warningsOf (solverCompIOf s (nodeVOf s sol) sol)
            (compIOf cir.components (solverCompIOf s (nodeVOf s sol) sol)
              (compBranchIOf s.ex (solverCompIOf s (nodeVOf s sol) sol)))
            s.vsources
        unfold warningsOf
        have hgog : quietCond s.vsources
            (compIOf cir.components (solverCompIOf s (nodeVOf s sol) sol)
              (compBranchIOf s.ex (solverCompIOf s (nodeVOf s sol) sol)))
            = true := by
          unfold quietCond
          rw [hvs, expand_filter_socket, Bool.and_eq_true]
          obtain ⟨comp, hmem, hct⟩ := hsock
          constructor
          · have hmem2 : comp ∈ cir.components.filter (fun c => c.ctype = "socket") :=
              List.mem_filter.2 ⟨hmem, by simp [hct]⟩
            rcases hfe : cir.components.filter (fun c => c.ctype = "socket") with
              _ | ⟨x, xs⟩
            · rw [hfe] at hmem2; cases hmem2
            · rw [hfe]; simp
          · rw [List.all_eq_true]
            intro c hc
            have hc' := List.mem_filter.1 hc
            have hb := hsmall c hc'.1 (by simpa using hc'.2)
            rw [qabs_eq]
            exact decide_eq_true hb
        rw [hgog]
        simp

/-- Witness for the amended C9 statement: a socket behind an open switch
delivers no current and triggers the warning. -/
theorem solve_quiet_loop_warning_witness :
    Warning.openLoop ∈ quietSolved.warnings :=
  solve_quiet_loop_warning quietCircuit quietSolved quietCircuit (by decide)
    (by decide)
    ⟨⟨"s", "socket", (0, 0), (0, 1), [("V", 5)], []⟩, by decide, rfl⟩
    (by
      intro comp hmem hct
      fin_cases hmem <;>
        simp_all [quietSolved, alGet, MILLIONTH] <;> norm_num)

/-! ## C1 — reported branch currents -/

theorem alGet_mem {α β : Type} [DecidableEq α] :
    ∀ (l : List (α × β)) (k : α) (v : β), alGet l k = some v → (k, v) ∈ l := by
  intro l
  induction l with
  | nil => intro k v h; cases h
  | cons hd t ih =>
      intro k v h
      obtain ⟨k0, v0⟩ := hd
      by_cases hk : k0 = k
      · rw [alGet, if_pos hk] at h
        injection h with h'
        subst hk
        subst h'
        exact List.mem_cons_self _ _
      · rw [alGet, if_neg hk] at h
        exact List.mem_cons_of_mem _ (ih k v h)

theorem solverCompIOf_lookup (s : MnaSystem) (nv : List (Point × ℚ))
    (sol : List ℚ) (sc : Component)
    (hnd : (s.ex.expanded.map (fun c => c.cid)).Nodup)
    (hm : sc ∈ s.ex.expanded) :
    alGet (solverCompIOf s nv sol) sc.cid
      = some (solverCurrentOf s nv sol sc) := by
  unfold solverCompIOf
  rw [foldl_alSet_eq (fun c : Component => c.cid)
    (fun c => solverCurrentOf s nv sol c) s.ex.expanded [] hnd
    (by intro g _; simp [alGet])]
  simpa using
    alGet_map_pairs (fun c : Component => c.cid)
      (fun c => solverCurrentOf s nv sol c) s.ex.expanded sc hnd hm

/-- Entries whose `(parent, label)` key differs from `(parent, lab)` do
not change that slot of the nested branch dict. -/
theorem branchFold_preserved (labOf : String → String) (valOf : String → ℚ) :
    ∀ (entries : List (String × String)) (acc : List (String × List (String × ℚ)))
      (parent lab : String),
      (∀ e ∈ entries, ¬(e.2 = parent ∧ labOf e.1 = lab)) →
      alGet ((alGet (entries.foldl
          (fun acc e =>
            alSet acc e.2
              (alSet ((alGet acc e.2).getD []) (labOf e.1) (valOf e.1)))
          acc) parent).getD []) lab
        = alGet ((alGet acc parent).getD []) lab := by
  intro entries
  induction entries with
  | nil => intro acc parent lab _; rfl
  | cons e t ih =>
      intro acc parent lab hne
      rw [List.foldl_cons, ih _ _ _ (fun e' he' => hne e' (List.mem_cons_of_mem _ he'))]
      by_cases hp : e.2 = parent
      · have hl : labOf e.1 ≠ lab := fun hl => hne e (by simp) ⟨hp, hl⟩
        rw [hp, alGet_alSet_self, Option.getD_some, alGet_alSet_ne _ _ _ _ hl]
      · rw [alGet_alSet_ne _ _ _ _ hp]

/-- With pairwise distinct `(parent, label)` keys, the nested branch dict
maps each entry's key to its value. -/
theorem branchFold_lookup (labOf : String → String) (valOf : String → ℚ) :
    ∀ (entries : List (String × String))
      (acc : List (String × List (String × ℚ))) (scid parent : String),
      (entries.map (fun e => (e.2, labOf e.1))).Nodup →
      (scid, parent) ∈ entries →
      alGet ((alGet (entries.foldl
          (fun acc e =>
            alSet acc e.2
              (alSet ((alGet acc e.2).getD []) (labOf e.1) (valOf e.1)))
          acc) parent).getD []) (labOf scid)
        = some (valOf scid) := by
  intro entries
  induction entries with
  | nil => intro acc scid parent _ hm; cases hm
  | cons e t ih =>
      intro acc scid parent hnd hm
      rcases List.mem_cons.1 hm with he | he
      · subst he
        rw [List.foldl_cons,
          branchFold_preserved labOf valOf t _ parent (labOf scid) ?hne]
        · rw [alGet_alSet_self, Option.getD_some, alGet_alSet_self]
        · intro e' he' ⟨hp, hl⟩
          exact hnd.not_mem (a := (parent, labOf scid))
            (by
              refine List.mem_map.2 ⟨e', he', ?_⟩
              rw [hp, hl])
      · rw [List.foldl_cons]
        exact ih _ scid parent hnd.of_cons he

/-- C1: in a successful solve, the branch current reported for every
expanded non-source solver component (under its parent identifier and
branch label) is `(Va - Vb) / R` for finite effective resistance `R`, and
exactly 0 for an "open" component.  The two `Nodup` hypotheses are the
well-formedness the public API guarantees (uuid identifiers make solver
identifiers and `(parent, label)` keys pairwise distinct). -/
theorem solve_branch_current (cir : Circuit) (s : MnaSystem)
    (res : SolveResult) (c' : Circuit)
    (hnd : (s.ex.expanded.map (fun c => c.cid)).Nodup)
    (hbk : (branchKeys s.ex).Nodup)
    (ha : assembleMNA cir = .sys s)
    (hs : solve_circuit cir = some (res, c'))
    (hok : res.ok = true) :
    ∀ sc ∈ s.ex.expanded, sc.ctype ≠ "socket" →
    ∀ parent lab, alGet s.ex.solver_parent sc.cid = some parent →
      alGet s.ex.solver_label sc.cid = some lab →
      (∀ R, effResV sc = .val R →
        alGet ((alGet res.comp_branch_i parent).getD []) lab
          = some ((nodeVGet res.node_v sc.a - nodeVGet res.node_v sc.b) / R))
      ∧ (effResV sc = .opn →
        alGet ((alGet res.comp_branch_i parent).getD []) lab = some 0) := by
  intro sc hm hsc parent lab hp hl
  unfold solve_circuit at hs
  rw [ha] at hs
  rcases hlin : solve_linear s.A s.b with _ | sol
  · simp only [hlin] at hs
    injection hs with h2
    rw [Prod.mk.injEq] at h2
    rw [← h2.1] at hok
    simp at hok
  · simp only [hlin] at hs
    injection hs with h2
    rw [Prod.mk.injEq] at h2
    obtain ⟨hr, _⟩ := h2
    subst hr
    dsimp only [postProcess]
    have hlabOf : (alGet s.ex.solver_label sc.cid).getD "main" = lab := by
      rw [hl]; rfl
    have hentry : (sc.cid, parent) ∈ s.ex.solver_parent := alGet_mem _ _ _ hp
    have hbranch :
        alGet ((alGet
          (compBranchIOf s.ex (solverCompIOf s (nodeVOf s sol) sol))
          parent).getD []) lab
          = some ((alGet (solverCompIOf s (nodeVOf s sol) sol) sc.cid).getD 0) := by
      have := branchFold_lookup
        (fun scid => (alGet s.ex.solver_label scid).getD "main")
        (fun scid =>
          (alGet (solverCompIOf s (nodeVOf s sol) sol) scid).getD 0)
        s.ex.solver_parent [] sc.cid parent hbk hentry
      dsimp only at this
      rw [hlabOf] at this
      exact this
    have hsci := solverCompIOf_lookup s (nodeVOf s sol) sol sc hnd hm
    rw [hsci] at hbranch
    have hcur :
        alGet ((alGet (compBranchIOf s.ex (solverCompIOf s (nodeVOf s sol) sol))
          parent).getD []) lab = some (solverCurrentOf s (nodeVOf s sol) sol sc) := by
      simpa using hbranch
    constructor
    · intro R heff
      rw [hcur]
      unfold solverCurrentOf
      rw [if_neg hsc, heff]
      dsimp only
      rw [qdiv_eq, qsub_eq]
    · intro heff
      rw [hcur]
      unfold solverCurrentOf
      rw [if_neg hsc, heff]

/-- Witness for C1 at the socket-resistor circuit: the resistor's
reported branch current is `(Va - Vb) / 2`. -/
theorem solve_branch_current_witness :
    alGet ((alGet sockResSolved.comp_branch_i "r").getD []) "main"
      = some ((nodeVGet sockResSolved.node_v (0, 0)
          - nodeVGet sockResSolved.node_v (0, 1)) / 2) :=
  (solve_branch_current sockResCircuit sockResSys sockResSolved
      sockResCircuit (by decide) (by decide) (by decide) (by decide) rfl
      ⟨"r", "resistor", (0, 0), (0, 1), [("R", 2)], []⟩ (by decide)
      (by decide) "r" "main" (by decide) (by decide)).1 2 (by decide)

/-! ## C6 — idempotence of `solve_circuit`

The only mutation a solver pass performs on the circuit is the rheostat
clamp write-back (`clampComp`).  The lemmas below show that clamping is
idempotent and invisible to every stage of the pipeline, so a second
solve reproduces the first one's result exactly. -/

theorem map_ext_mem {α β : Type} (f g : α → β) :
    ∀ l : List α, (∀ a ∈ l, f a = g a) → l.map f = l.map g := by
  intro l
  induction l with
  | nil => intro _; rfl
  | cons a t ih =>
      intro h
      rw [List.map_cons, List.map_cons, h a (by simp),
        ih (fun x hx => h x (List.mem_cons_of_mem _ hx))]

theorem foldl_ext {α β : Type} (f g : β → α → β)
    (h : ∀ b a, f b a = g b a) :
    ∀ (l : List α) (init : β), l.foldl f init = l.foldl g init := by
  intro l
  induction l with
  | nil => intro init; rfl
  | cons a t ih =>
      intro init
      rw [List.foldl_cons, List.foldl_cons, h, ih]

theorem bind_congr' {α β : Type} (o : Option α) (F G : α → Option β)
    (h : ∀ a, F a = G a) : o >>= F = o >>= G := by
  cases o with
  | none => rfl
  | some a => exact h a

theorem alSet_alSet_self {α β : Type} [DecidableEq α]
    (l : List (α × β)) (k : α) (v w : β) :
    alSet (alSet l k v) k w = alSet l k w := by
  induction l with
  | nil => simp [alSet]
  | cons hd t ih =>
      by_cases hk : hd.1 = k
      · simp [alSet, hk]
      · simp [alSet, hk, ih]

theorem clampComp_of_ne (c : Component) (h : c.ctype ≠ "rheostat") :
    clampComp c = c := by
  unfold clampComp effective_resistance
  dsimp only
  repeat' split
  all_goals first | rfl | exact absurd (by assumption) h

theorem clampComp_cid (c : Component) : (clampComp c).cid = c.cid := by
  unfold clampComp effective_resistance
  dsimp only
  repeat' split
  all_goals rfl

theorem clampComp_ctype (c : Component) : (clampComp c).ctype = c.ctype := by
  unfold clampComp effective_resistance
  dsimp only
  repeat' split
  all_goals rfl

theorem clampComp_a (c : Component) : (clampComp c).a = c.a := by
  unfold clampComp effective_resistance
  dsimp only
  repeat' split
  all_goals rfl

theorem clampComp_b (c : Component) : (clampComp c).b = c.b := by
  unfold clampComp effective_resistance
  dsimp only
  repeat' split
  all_goals rfl

/-- The rheostat branch of `effective_resistance`, written with
`rheoClamp`. -/
theorem rheo_eff_eq (c : Component) (h : c.ctype = "rheostat") :
    effective_resistance c =
      (.val (max (rheoClamp c) MILLIONTH),
        { c with props := alSet c.props "R" (rheoClamp c) }) := by
  set R := (alGet c.props "R").getD 100 with hR
  set Rmin := (alGet c.props "Rmin").getD 0 with hRmin
  set Rmax := (alGet c.props "Rmax").getD (max R 100) with hRmax
  have hlo : rheoLo c = min Rmin Rmax := rfl
  have hhi : rheoHi c = max Rmin Rmax := rfl
  have h1 : (if Rmax < Rmin then Rmax else Rmin) = rheoLo c := by
    rw [hlo]
    rcases lt_or_le Rmax Rmin with hc | hc
    · rw [if_pos hc, min_def, if_neg (not_le.2 hc)]
    · rw [if_neg (not_lt.2 hc), min_def, if_pos hc]
  have h2 : (if Rmax < Rmin then Rmin else Rmax) = rheoHi c := by
    rw [hhi]
    rcases lt_or_le Rmax Rmin with hc | hc
    · rw [if_pos hc, max_def, if_neg (not_le.2 hc)]
    · rw [if_neg (not_lt.2 hc), max_def, if_pos hc]
  have hRC : rheoClamp c = max (min R (rheoHi c)) (rheoLo c) := rfl
  unfold effective_resistance
  simp only [h]
  rw [if_neg (by decide : ¬("rheostat" : String) = "wire"),
    if_neg (by decide : ¬("rheostat" : String) = "resistor"),
    if_neg (by decide : ¬("rheostat" : String) = "bulb"),
    if_pos trivial]
  simp only [qmax_eq, qmin_eq]
  rw [← hR, ← hRmin, ← hRmax, h1, h2, hRC]

theorem clampComp_rheostat (c : Component) (h : c.ctype = "rheostat") :
    clampComp c = { c with props := alSet c.props "R" (rheoClamp c) } := by
  unfold clampComp
  rw [rheo_eff_eq c h]

theorem effResV_rheostat (c : Component) (h : c.ctype = "rheostat") :
    effResV c = .val (max (rheoClamp c) MILLIONTH) := by
  unfold effResV
  rw [rheo_eff_eq c h]

/-- A clamped value is a fixed point of the rheostat clamp, including the
case where `Rmax` is absent and its default depends on `R`. -/
theorem clamp_stable (R Rmin : ℚ) (mo : Option ℚ) (Rc : ℚ)
    (hRc : Rc = max (min R (max Rmin (mo.getD (max R 100))))
      (min Rmin (mo.getD (max R 100)))) :
    max (min Rc (max Rmin (mo.getD (max Rc 100))))
      (min Rmin (mo.getD (max Rc 100))) = Rc := by
  cases mo with
  | some m =>
      simp only [Option.getD_some] at hRc ⊢
      have h1 : Rc ≤ max Rmin m := by
        rw [hRc]
        exact max_le (min_le_right _ _) min_le_max
      have h2 : min Rmin m ≤ Rc := by
        rw [hRc]
        exact le_max_right _ _
      rw [min_eq_left h1, max_eq_left h2]
  | none =>
      simp only [Option.getD_none] at hRc ⊢
      rcases le_total Rmin (max R 100) with hc | hc
      · rw [max_eq_right hc, min_eq_left (le_max_left R 100),
          min_eq_left hc] at hRc
        have hRle : R ≤ Rc := by
          rw [hRc]
          exact le_max_left _ _
        have hm : Rmin ≤ max Rc 100 := le_trans hc (max_le_max hRle le_rfl)
        rw [max_eq_right hm, min_eq_left hm, min_eq_left (le_max_left Rc 100)]
        exact max_eq_left (by rw [hRc]; exact le_max_right _ _)
      · rw [max_eq_left hc, min_eq_left (le_trans (le_max_left R 100) hc),
          min_eq_right hc, max_eq_right (le_max_left R 100)] at hRc
        have h100 : (100 : ℚ) ≤ Rc := by
          rw [hRc]
          exact le_max_right _ _
        have hRcRmin : Rc ≤ Rmin := by
          rw [hRc]
          exact hc
        rw [max_eq_left h100, max_eq_left hRcRmin, min_eq_left hRcRmin,
          min_eq_right hRcRmin, max_self]

theorem rheoClamp_clamped (c : Component) :
    rheoClamp { c with props := alSet c.props "R" (rheoClamp c) }
      = rheoClamp c := by
  have key := clamp_stable (rheoR c) ((alGet c.props "Rmin").getD 0)
    (alGet c.props "Rmax") (rheoClamp c) rfl
  have hR : rheoR { c with props := alSet c.props "R" (rheoClamp c) }
      = rheoClamp c := by
    unfold rheoR
    dsimp only
    rw [alGet_alSet_self]
    rfl
  have hHi : rheoHi { c with props := alSet c.props "R" (rheoClamp c) }
      = max ((alGet c.props "Rmin").getD 0)
          ((alGet c.props "Rmax").getD (max (rheoClamp c) 100)) := by
    unfold rheoHi
    dsimp only
    rw [hR, alGet_alSet_ne _ _ _ _ (by decide),
      alGet_alSet_ne _ _ _ _ (by decide)]
  have hLo : rheoLo { c with props := alSet c.props "R" (rheoClamp c) }
      = min ((alGet c.props "Rmin").getD 0)
          ((alGet c.props "Rmax").getD (max (rheoClamp c) 100)) := by
    unfold rheoLo
    dsimp only
    rw [hR, alGet_alSet_ne _ _ _ _ (by decide),
      alGet_alSet_ne _ _ _ _ (by decide)]
  calc rheoClamp { c with props := alSet c.props "R" (rheoClamp c) }
      = max (min (rheoClamp c)
          (max ((alGet c.props "Rmin").getD 0)
            ((alGet c.props "Rmax").getD (max (rheoClamp c) 100))))
          (min ((alGet c.props "Rmin").getD 0)
            ((alGet c.props "Rmax").getD (max (rheoClamp c) 100))) := by
        rw [rheoClamp, hR, hHi, hLo]
    _ = rheoClamp c := key

theorem clampComp_idem (c : Component) :
    clampComp (clampComp c) = clampComp c := by
  by_cases h : c.ctype = "rheostat"
  · rw [clampComp_rheostat c h,
      clampComp_rheostat _
        (show ({ c with props := alSet c.props "R" (rheoClamp c) } :
          Component).ctype = "rheostat" from h),
      rheoClamp_clamped]
    congr 1
    exact alSet_alSet_self _ _ _ _
  · rw [clampComp_of_ne c h, clampComp_of_ne c h]

theorem effResV_clampComp (c : Component) :
    effResV (clampComp c) = effResV c := by
  by_cases h : c.ctype = "rheostat"
  · rw [clampComp_rheostat c h,
      effResV_rheostat _
        (show ({ c with props := alSet c.props "R" (rheoClamp c) } :
          Component).ctype = "rheostat" from h),
      effResV_rheostat c h, rheoClamp_clamped]
  · rw [clampComp_of_ne c h]

theorem surrogate_ctype (c : Component) :
    ∀ p ∈ surrogatesOf c, p.1.ctype = "switch_spst" ∨ p.1 = c := by
  intro p hp
  unfold surrogatesOf at hp
  dsimp only at hp
  repeat' split at hp
  all_goals simp only [List.mem_singleton, List.mem_cons,
    List.not_mem_nil, or_false] at hp
  all_goals first
    | (subst hp; exact Or.inl rfl)
    | (subst hp; exact Or.inr rfl)
    | (rcases hp with hp | hp <;> subst hp <;> exact Or.inl rfl)

theorem surrogatesOf_clamp (c : Component) :
    surrogatesOf (clampComp c)
      = (surrogatesOf c).map (fun p => (clampComp p.1, p.2)) := by
  by_cases h : c.ctype = "rheostat"
  · have hpass : ∀ d : Component, d.ctype = "rheostat" →
        surrogatesOf d = [(d, "main")] := by
      intro d hd
      unfold surrogatesOf
      rw [if_neg (by rw [hd]; decide), if_neg (by rw [hd]; decide),
        if_neg (by rw [hd]; decide), if_neg (by rw [hd]; decide),
        if_neg (by rw [hd]; decide)]
    rw [hpass c h, hpass (clampComp c) (by rw [clampComp_ctype]; exact h)]
    rfl
  · rw [clampComp_of_ne c h]
    have hfix : ∀ p ∈ surrogatesOf c,
        (fun p : Component × String => (clampComp p.1, p.2)) p = id p := by
      intro p hp
      rcases surrogate_ctype c p hp with hc | hc
      · show (clampComp p.1, p.2) = p
        rw [clampComp_of_ne p.1 (by rw [hc]; decide)]
      · show (clampComp p.1, p.2) = p
        rw [hc, clampComp_of_ne c h, ← hc]
    rw [map_ext_mem _ _ _ hfix, List.map_id]

theorem push_clamp (st : Expansion) (cc : Component) (parent lab : String) :
    Expansion.push ⟨st.expanded.map clampComp, st.solver_parent,
        st.solver_label⟩ (clampComp cc) parent lab
      = ⟨(st.push cc parent lab).expanded.map clampComp,
         (st.push cc parent lab).solver_parent,
         (st.push cc parent lab).solver_label⟩ := by
  unfold Expansion.push
  dsimp only
  rw [clampComp_cid, List.map_append]
  rfl

theorem pushes_clamp (cid : String) :
    ∀ (ps : List (Component × String)) (st : Expansion),
      ps.foldl (fun (acc : Expansion) p => acc.push (clampComp p.1) cid p.2)
          ⟨st.expanded.map clampComp, st.solver_parent, st.solver_label⟩
        = ⟨(ps.foldl (fun (acc : Expansion) p => acc.push p.1 cid p.2)
              st).expanded.map clampComp,
           (ps.foldl (fun (acc : Expansion) p => acc.push p.1 cid p.2)
              st).solver_parent,
           (ps.foldl (fun (acc : Expansion) p => acc.push p.1 cid p.2)
              st).solver_label⟩ := by
  intro ps
  induction ps with
  | nil => intro st; rfl
  | cons p t ih =>
      intro st
      rw [List.foldl_cons, List.foldl_cons]
      try dsimp only
      rw [push_clamp, ih]

theorem expandOne_clamp (st : Expansion) (c : Component) :
    expandOne ⟨st.expanded.map clampComp, st.solver_parent, st.solver_label⟩
        (clampComp c)
      = ⟨(expandOne st c).expanded.map clampComp,
         (expandOne st c).solver_parent, (expandOne st c).solver_label⟩ := by
  unfold expandOne
  rw [surrogatesOf_clamp, clampComp_cid, List.foldl_map]
  exact pushes_clamp c.cid (surrogatesOf c) st

theorem expand_clamp (comps : List Component) :
    expandComponents (comps.map clampComp)
      = ⟨(expandComponents comps).expanded.map clampComp,
         (expandComponents comps).solver_parent,
         (expandComponents comps).solver_label⟩ := by
  have aux : ∀ (l : List Component) (st : Expansion),
      (l.map clampComp).foldl expandOne
          ⟨st.expanded.map clampComp, st.solver_parent, st.solver_label⟩
        = ⟨(l.foldl expandOne st).expanded.map clampComp,
           (l.foldl expandOne st).solver_parent,
           (l.foldl expandOne st).solver_label⟩ := by
    intro l
    induction l with
    | nil => intro st; rfl
    | cons c t ih =>
        intro st
        rw [List.map_cons, List.foldl_cons, List.foldl_cons, expandOne_clamp,
          ih]
  exact aux comps ⟨[], [], []⟩

theorem endpointsOf_clamp (l : List Component) :
    endpointsOf (l.map clampComp) = endpointsOf l := by
  induction l with
  | nil => rfl
  | cons c t ih =>
      show (clampComp c).a :: (clampComp c).b :: endpointsOf (t.map clampComp)
        = c.a :: c.b :: endpointsOf t
      rw [clampComp_a, clampComp_b, ih]

theorem filter_socket_clamp (l : List Component) :
    (l.map clampComp).filter (fun c => c.ctype = "socket")
      = l.filter (fun c => c.ctype = "socket") := by
  induction l with
  | nil => rfl
  | cons c t ih =>
      rw [List.map_cons, List.filter_cons, List.filter_cons]
      by_cases hc : c.ctype = "socket"
      · rw [if_pos (by simp [clampComp_ctype, hc]), if_pos (by simp [hc]),
          clampComp_of_ne c (by rw [hc]; decide), ih]
      · rw [if_neg (by simp [clampComp_ctype, hc]),
          if_neg (by simp [hc]), ih]

theorem find_cid_clamp (l : List Component) (cid0 : String) :
    (l.map clampComp).find? (fun x => x.cid = cid0)
      = (l.find? (fun x => x.cid = cid0)).map clampComp := by
  induction l with
  | nil => rfl
  | cons c t ih =>
      rw [List.map_cons]
      by_cases hc : c.cid = cid0
      · rw [List.find?_cons_of_pos _ (by simp [clampComp_cid, hc]),
          List.find?_cons_of_pos _ (by simp [hc])]
        rfl
      · rw [List.find?_cons_of_neg _ (by simp [clampComp_cid, hc]),
          List.find?_cons_of_neg _ (by simp [hc]), ih]

theorem find_socket_clamp (l : List Component) :
    (l.map clampComp).find? (fun c => c.ctype = "socket")
      = l.find? (fun c => c.ctype = "socket") := by
  induction l with
  | nil => rfl
  | cons c t ih =>
      rw [List.map_cons]
      by_cases hc : c.ctype = "socket"
      · rw [List.find?_cons_of_pos _ (by simp [clampComp_ctype, hc]),
          List.find?_cons_of_pos _ (by simp [hc]),
          clampComp_of_ne c (by rw [hc]; decide)]
      · rw [List.find?_cons_of_neg _ (by simp [clampComp_ctype, hc]),
          List.find?_cons_of_neg _ (by simp [hc]), ih]

theorem ground_clamp (comps : List Component) :
    groundOf (comps.map clampComp) = groundOf comps := by
  unfold groundOf
  rw [find_socket_clamp]
  cases h : comps.find? (fun c => c.ctype = "socket") with
  | some c => rfl
  | none =>
      show minPoint (endpointsOf (comps.map clampComp))
        = minPoint (endpointsOf comps)
      rw [endpointsOf_clamp]

theorem stamp_clamp (ni : List (Point × ℕ)) :
    ∀ (l : List Component) (A0 : List (List ℚ)),
      stampConductances (l.map clampComp) ni A0
        = stampConductances l ni A0 := by
  intro l
  induction l with
  | nil => intro A0; rfl
  | cons c t ih =>
      intro A0
      unfold stampConductances
      rw [List.map_cons, List.foldlM_cons, List.foldlM_cons]
      dsimp only
      simp only [clampComp_ctype, effResV_clampComp, clampComp_a, clampComp_b]
      exact bind_congr' _ _ _ (fun A1 => ih A1)

theorem assembleMNA_clamp_sys (cir : Circuit) (s : MnaSystem)
    (ha : assembleMNA cir = .sys s) :
    assembleMNA (clampCircuit cir) = .sys (clampSys s) := by
  unfold assembleMNA at ha
  dsimp only at ha
  unfold assembleMNA clampCircuit
  dsimp only
  rw [expand_clamp]
  dsimp only
  rw [ground_clamp, endpointsOf_clamp, filter_socket_clamp]
  split at ha
  · cases ha
  · next hN =>
      rw [if_neg hN, stamp_clamp]
      split at ha
      · cases ha
      · next A1 hA1 =>
          injection ha with h
          subst h
          rfl

theorem solverCurrentOf_clamp (s : MnaSystem) (nv : List (Point × ℚ))
    (sol : List ℚ) (c : Component) :
    solverCurrentOf (clampSys s) nv sol (clampComp c)
      = solverCurrentOf s nv sol c := by
  by_cases hsock : c.ctype = "socket"
  · rw [clampComp_of_ne c (by rw [hsock]; decide)]
    rfl
  · unfold solverCurrentOf
    rw [clampComp_ctype, if_neg hsock, if_neg hsock, effResV_clampComp,
      clampComp_a, clampComp_b]

theorem solverCompIOf_clamp (s : MnaSystem) (nv : List (Point × ℚ))
    (sol : List ℚ) :
    solverCompIOf (clampSys s) nv sol = solverCompIOf s nv sol := by
  unfold solverCompIOf
  show (s.ex.expanded.map clampComp).foldl
      (fun acc c => alSet acc c.cid (solverCurrentOf (clampSys s) nv sol c)) []
    = s.ex.expanded.foldl
      (fun acc c => alSet acc c.cid (solverCurrentOf s nv sol c)) []
  rw [List.foldl_map]
  exact foldl_ext _ _
    (fun acc c => by rw [clampComp_cid, solverCurrentOf_clamp]) _ _

theorem openFlagsOf_clamp (ex : Expansion) :
    openFlagsOf ⟨ex.expanded.map clampComp, ex.solver_parent,
      ex.solver_label⟩ = openFlagsOf ex := by
  unfold openFlagsOf
  dsimp only
  refine foldl_ext _ _ ?_ _ _
  intro acc e
  rw [find_cid_clamp]
  cases h : ex.expanded.find? (fun x => x.cid = e.1) with
  | none => rfl
  | some sc =>
      simp only [Option.map_some', clampComp_ctype, effResV_clampComp]

theorem compIOf_clamp (comps : List Component) (sci : List (String × ℚ))
    (cbi : List (String × List (String × ℚ))) :
    compIOf (comps.map clampComp) sci cbi = compIOf comps sci cbi := by
  unfold compIOf
  rw [List.foldl_map]
  refine foldl_ext _ _ ?_ _ _
  intro acc oc
  simp only [clampComp_ctype, clampComp_cid]

theorem finalFlagsOf_clamp (comps vs : List Component)
    (ci : List (String × ℚ)) (fl : List (String × String)) :
    finalFlagsOf (comps.map clampComp) vs ci fl
      = finalFlagsOf comps vs ci fl := by
  unfold finalFlagsOf
  by_cases hcond : (maxIwarnOf vs).isSome ∧
      vs.any (fun c => alGet fl c.cid = some "source_overcurrent")
  · rw [if_pos hcond, if_pos hcond]
    dsimp only
    rw [List.foldl_map]
    refine foldl_ext _ _ ?_ _ _
    intro acc c
    simp only [clampComp_ctype, clampComp_cid]
  · rw [if_neg hcond, if_neg hcond]

theorem postProcess_clamp (comps : List Component) (s : MnaSystem)
    (sol : List ℚ) :
    postProcess (comps.map clampComp) (clampSys s) sol
      = postProcess comps s sol := by
  unfold postProcess
  dsimp only
  have hnv : nodeVOf (clampSys s) sol = nodeVOf s sol := rfl
  have hcbi : ∀ x, compBranchIOf (clampSys s).ex x = compBranchIOf s.ex x :=
    fun _ => rfl
  have hof : openFlagsOf (clampSys s).ex = openFlagsOf s.ex :=
    openFlagsOf_clamp s.ex
  have hvs : (clampSys s).vsources = s.vsources := rfl
  rw [hnv, solverCompIOf_clamp, hcbi, hof, hvs, compIOf_clamp,
    finalFlagsOf_clamp]

theorem clampCircuit_idem (cir : Circuit) :
    clampCircuit (clampCircuit cir) = clampCircuit cir := by
  unfold clampCircuit
  dsimp only
  rw [List.map_map]
  exact congrArg Circuit.mk
    (map_ext_mem _ _ _ (fun c _ => clampComp_idem c))

/-- C6: `solve_circuit` is idempotent.  A first solve returning `res`
together with the (possibly rheostat-clamped) circuit `c1` is reproduced
exactly by solving `c1`: the same node voltages, component and branch
currents, flags and warnings, and no further circuit mutation. -/
theorem solve_circuit_idempotent (cir c1 : Circuit) (res : SolveResult)
    (hs : solve_circuit cir = some (res, c1)) :
    solve_circuit c1 = some (res, c1) := by
  unfold solve_circuit at hs
  cases ha : assembleMNA cir with
  | empty =>
      simp only [ha] at hs
      injection hs with h2
      rw [Prod.mk.injEq] at h2
      obtain ⟨hres, hc1⟩ := h2
      subst hc1
      unfold solve_circuit
      simp only [ha]
      rw [hres]
  | raised =>
      simp only [ha] at hs
      cases hs
  | sys s =>
      simp only [ha] at hs
      have hA : (clampSys s).A = s.A := rfl
      have hB : (clampSys s).b = s.b := rfl
      cases hlin : solve_linear s.A s.b with
      | none =>
          simp only [hlin] at hs
          injection hs with h2
          rw [Prod.mk.injEq] at h2
          obtain ⟨hres, hc1⟩ := h2
          subst hc1
          unfold solve_circuit
          simp only [assembleMNA_clamp_sys cir s ha]
          rw [hA, hB]
          simp only [hlin]
          rw [clampCircuit_idem, hres]
      | some sol =>
          simp only [hlin] at hs
          injection hs with h2
          rw [Prod.mk.injEq] at h2
          obtain ⟨hres, hc1⟩ := h2
          subst hc1
          unfold solve_circuit
          simp only [assembleMNA_clamp_sys cir s ha]
          rw [hA, hB]
          simp only [hlin]
          have hcomps : (clampCircuit cir).components
              = cir.components.map clampComp := rfl
          rw [clampCircuit_idem, hcomps, postProcess_clamp, hres]

/-- Witness for C6: re-solving the clamped rheostat circuit returns the
same result and leaves the circuit unchanged. -/
theorem solve_circuit_idempotent_witness :
    solve_circuit rheoSoloClamped = some (rheoSoloRes, rheoSoloClamped) :=
  solve_circuit_idempotent rheoSolo rheoSoloClamped rheoSoloRes (by decide)

/-! ## C3 and C4 — goal-seek state tracking -/

theorem isSome_map {α β : Type} (f : α → β) (o : Option α) :
    (o.map f).isSome = o.isSome := by
  cases o <;> rfl

theorem find_updCompList_self (cid : String) (f : Component → Component)
    (hf : ∀ c : Component, c.cid = cid → (f c).cid = cid) :
    ∀ l : List Component,
      (updCompList cid f l).find? (fun c => c.cid = cid)
        = (l.find? (fun c => c.cid = cid)).map f := by
  intro l
  induction l with
  | nil => rfl
  | cons c t ih =>
      by_cases hc : c.cid = cid
      · rw [updCompList, if_pos hc,
          List.find?_cons_of_pos _ (by simp [hf c hc]),
          List.find?_cons_of_pos _ (by simp [hc])]
        rfl
      · rw [updCompList, if_neg hc,
          List.find?_cons_of_neg _ (by simp [hc]),
          List.find?_cons_of_neg _ (by simp [hc]), ih]

theorem find_updCompList_ne (cid cid' : String) (f : Component → Component)
    (hne : cid' ≠ cid) (hf : ∀ c : Component, c.cid = cid → (f c).cid = cid) :
    ∀ l : List Component,
      (updCompList cid f l).find? (fun c => c.cid = cid')
        = l.find? (fun c => c.cid = cid') := by
  intro l
  induction l with
  | nil => rfl
  | cons c t ih =>
      by_cases hc : c.cid = cid
      · rw [updCompList, if_pos hc,
          List.find?_cons_of_neg _ (by simp [hf c hc, hne.symm]),
          List.find?_cons_of_neg _ (by simp [hc, hne.symm])]
      · rw [updCompList, if_neg hc]
        by_cases hc' : c.cid = cid'
        · rw [List.find?_cons_of_pos _ (by simp [hc']),
            List.find?_cons_of_pos _ (by simp [hc'])]
        · rw [List.find?_cons_of_neg _ (by simp [hc']),
            List.find?_cons_of_neg _ (by simp [hc']), ih]

theorem getComp_setProp_self (c : Circuit) (cid key : String) (v : ℚ) :
    (setProp c cid key v).getComp cid
      = (c.getComp cid).map
          (fun comp => { comp with props := alSet comp.props key v }) := by
  unfold setProp Circuit.getComp
  dsimp only
  exact find_updCompList_self cid
    (fun comp => { comp with props := alSet comp.props key v })
    (fun c hc => hc) c.components

theorem getComp_clamp (c : Circuit) (cid : String) :
    (clampCircuit c).getComp cid = (c.getComp cid).map clampComp := by
  unfold clampCircuit Circuit.getComp
  dsimp only
  exact find_cid_clamp c.components cid

theorem component_metrics_comp (res : SolveResult) (comp comp' : Component)
    (m : List (String × ℚ))
    (h : component_metrics res comp = some (m, comp')) :
    comp' = clampComp comp := by
  unfold component_metrics at h
  dsimp only at h
  split at h
  · cases h
  · next heq =>
      injection h with h2
      rw [Prod.mk.injEq] at h2
      unfold clampComp
      rw [heq]
      exact h2.2.symm
  · next heq =>
      injection h with h2
      rw [Prod.mk.injEq] at h2
      unfold clampComp
      rw [heq]
      exact h2.2.symm

theorem solve_circuit_cir (cir1 : Circuit) (res : SolveResult)
    (cir2 : Circuit) (h : solve_circuit cir1 = some (res, cir2)) :
    cir2 = cir1 ∨ cir2 = clampCircuit cir1 := by
  unfold solve_circuit at h
  split at h
  · injection h with h2
    rw [Prod.mk.injEq] at h2
    exact Or.inl h2.2.symm
  · cases h
  · split at h
    · injection h with h2
      rw [Prod.mk.injEq] at h2
      exact Or.inr h2.2.symm
    · injection h with h2
      rw [Prod.mk.injEq] at h2
      exact Or.inr h2.2.symm

theorem goal_measure_getComp (res : SolveResult) (cir : Circuit)
    (spec : MeasureSpec) (mv : Option ℚ) (cir' : Circuit)
    (h : goal_measure res cir spec = some (mv, cir')) (cid0 : String) :
    cir'.getComp cid0 = cir.getComp cid0 ∨
      cir'.getComp cid0 = (cir.getComp cid0).map clampComp := by
  unfold goal_measure at h
  dsimp only at h
  split at h
  · split at h
    all_goals
      injection h with h2
      rw [Prod.mk.injEq] at h2
      obtain ⟨-, hcir⟩ := h2
      subst hcir
      exact Or.inl rfl
  · split at h
    · injection h with h2
      rw [Prod.mk.injEq] at h2
      obtain ⟨-, hcir⟩ := h2
      subst hcir
      exact Or.inl rfl
    · next cid hcid =>
        split at h
        · injection h with h2
          rw [Prod.mk.injEq] at h2
          obtain ⟨-, hcir⟩ := h2
          subst hcir
          exact Or.inl rfl
        · split at h
          · injection h with h2
            rw [Prod.mk.injEq] at h2
            obtain ⟨-, hcir⟩ := h2
            subst hcir
            exact Or.inl rfl
          · next comp hfound =>
              split at h
              · cases h
              · next m comp' hmet =>
                  have hcidc : comp.cid = cid := by
                    simpa using List.find?_some hfound
                  have hcomp' : comp' = clampComp comp :=
                    component_metrics_comp res comp comp' m hmet
                  have hf : ∀ c : Component, c.cid = cid →
                      ((fun _ : Component => comp') c).cid = cid := by
                    intro c _
                    rw [hcomp', clampComp_cid, hcidc]
                  split at h
                  all_goals
                    injection h with h2
                    rw [Prod.mk.injEq] at h2
                    obtain ⟨-, hcir⟩ := h2
                    subst hcir
                    by_cases hc0 : cid0 = cid
                    · subst hc0
                      right
                      show Circuit.getComp
                        ⟨updCompList cid0 (fun _ => comp') cir.components⟩
                          cid0 = _
                      unfold Circuit.getComp
                      dsimp only
                      rw [find_updCompList_self cid0 _ hf,
                        show cir.components.find? (fun c => c.cid = cid0)
                          = some comp from hfound, hcomp']
                      rfl
                    · left
                      show Circuit.getComp
                        ⟨updCompList cid (fun _ => comp') cir.components⟩
                          cid0 = _
                      unfold Circuit.getComp
                      dsimp only
                      exact find_updCompList_ne cid cid0 _ hc0 hf
                        cir.components

theorem tracks_rfl (varCid : String) (c : Circuit) : tracks varCid c c :=
  fun comp hc => ⟨by rw [hc]; rfl, fun _ => hc⟩

theorem tracks_clamp (varCid : String) (c : Circuit) :
    tracks varCid c (clampCircuit c) := by
  intro comp hc
  rw [getComp_clamp, hc]
  exact ⟨rfl, fun hnr => by rw [Option.map_some', clampComp_of_ne comp hnr]⟩

theorem tracks_trans (varCid : String) (a b c : Circuit)
    (h1 : tracks varCid a b) (h2 : tracks varCid b c) :
    tracks varCid a c := by
  intro comp hc
  obtain ⟨hs, hcond⟩ := h1 comp hc
  rcases hb : b.getComp varCid with _ | comp1
  · rw [hb] at hs
    cases hs
  · exact ⟨(h2 comp1 hb).1, fun hnr => (h2 comp (hcond hnr)).2 hnr⟩

theorem tracks_solve (varCid : String) (c1 c2 : Circuit) (res : SolveResult)
    (h : solve_circuit c1 = some (res, c2)) : tracks varCid c1 c2 := by
  rcases solve_circuit_cir c1 res c2 h with h' | h'
  · rw [h']
    exact tracks_rfl varCid c1
  · rw [h']
    exact tracks_clamp varCid c1

theorem tracks_goal_measure (varCid : String) (res : SolveResult)
    (c c' : Circuit) (spec : MeasureSpec) (mv : Option ℚ)
    (h : goal_measure res c spec = some (mv, c')) : tracks varCid c c' := by
  intro comp hc
  rcases goal_measure_getComp res c spec mv c' h varCid with h' | h'
  · rw [h', hc]
    exact ⟨rfl, fun _ => rfl⟩
  · rw [h', hc]
    exact ⟨rfl, fun hnr => by rw [Option.map_some', clampComp_of_ne comp hnr]⟩

/-- What one `eval_err` call does to the state: either a cache hit (state
unchanged, the key already cached) or a write-through evaluation (the key
is cached, the variable property is set to it in place). -/
theorem eval_err_cases (varCid varProp : String) (target : ℚ)
    (measure : MeasureSpec) (rejectOC : Bool) (st : GsState) (x : ℚ)
    (r : Option (ℚ × ℚ)) (st1 : GsState)
    (hE : eval_err varCid varProp target measure rejectOC st x
      = some (r, st1)) :
    (st1 = st ∧ (alGet st.cache x).isSome) ∨
      ((alGet st1.cache x).isSome ∧
        ∀ comp, st.cir.getComp varCid = some comp →
          (st1.cir.getComp varCid).isSome ∧
            (comp.ctype ≠ "rheostat" →
              st1.cir.getComp varCid
                = some { comp with props := alSet comp.props varProp x })) := by
  unfold eval_err at hE
  split at hE
  · next v hvx =>
      left
      injection hE with h2
      rw [Prod.mk.injEq] at h2
      refine ⟨h2.2.symm, ?_⟩
      rw [hvx]
      rfl
  · next hvx =>
      dsimp only at hE
      right
      split at hE
      · cases hE
      · next res cir2 hsolve =>
          have htr2 : tracks varCid (setProp st.cir varCid varProp x) cir2 :=
            tracks_solve varCid _ cir2 res hsolve
          have key : ∀ cir3 : Circuit,
              tracks varCid (setProp st.cir varCid varProp x) cir3 →
              ∀ comp, st.cir.getComp varCid = some comp →
                (cir3.getComp varCid).isSome ∧
                  (comp.ctype ≠ "rheostat" →
                    cir3.getComp varCid
                      = some { comp with
                          props := alSet comp.props varProp x }) := by
            intro cir3 htr comp hc
            have hU : (setProp st.cir varCid varProp x).getComp varCid
                = some { comp with props := alSet comp.props varProp x } := by
              rw [getComp_setProp_self, hc]
              rfl
            obtain ⟨hs, hcond⟩ := htr _ hU
            exact ⟨hs, fun hnr => hcond hnr⟩
          split at hE
          · injection hE with h2
            rw [Prod.mk.injEq] at h2
            obtain ⟨-, hst⟩ := h2
            rw [← hst]
            refine ⟨?_, key cir2 htr2⟩
            rw [alGet_alSet_self]
            rfl
          · split at hE
            · injection hE with h2
              rw [Prod.mk.injEq] at h2
              obtain ⟨-, hst⟩ := h2
              rw [← hst]
              refine ⟨?_, key cir2 htr2⟩
              rw [alGet_alSet_self]
              rfl
            · split at hE
              · cases hE
              · next cir3 hgm =>
                  injection hE with h2
                  rw [Prod.mk.injEq] at h2
                  obtain ⟨-, hst⟩ := h2
                  rw [← hst]
                  refine ⟨?_, key cir3 (tracks_trans varCid _ cir2 cir3 htr2
                    (tracks_goal_measure varCid res cir2 cir3 measure _ hgm))⟩
                  rw [alGet_alSet_self]
                  rfl
              · next mv cir3 hgm =>
                  injection hE with h2
                  rw [Prod.mk.injEq] at h2
                  obtain ⟨-, hst⟩ := h2
                  rw [← hst]
                  refine ⟨?_, key cir3 (tracks_trans varCid _ cir2 cir3 htr2
                    (tracks_goal_measure varCid res cir2 cir3 measure _ hgm))⟩
                  rw [alGet_alSet_self]
                  rfl

/-- Presence of the variable component survives one evaluation. -/
theorem eval_err_pres (varCid varProp : String) (target : ℚ)
    (measure : MeasureSpec) (rejectOC : Bool) (st : GsState) (x : ℚ)
    (r : Option (ℚ × ℚ)) (st1 : GsState)
    (hE : eval_err varCid varProp target measure rejectOC st x
      = some (r, st1))
    (hp : (st.cir.getComp varCid).isSome) :
    (st1.cir.getComp varCid).isSome := by
  rcases eval_err_cases varCid varProp target measure rejectOC st x r st1 hE
    with ⟨hst, -⟩ | ⟨-, hstrong⟩
  · rw [hst]
    exact hp
  · rcases hc : st.cir.getComp varCid with _ | comp
    · rw [hc] at hp
      cases hp
    · exact (hstrong comp hc).1

/-- The loop invariant survives one evaluation. -/
theorem eval_err_inv (varCid varProp : String) (target : ℚ)
    (measure : MeasureSpec) (rejectOC : Bool) (st : GsState) (x : ℚ)
    (r : Option (ℚ × ℚ)) (st1 : GsState)
    (hE : eval_err varCid varProp target measure rejectOC st x
      = some (r, st1))
    (hI : gsInv varCid varProp st) : gsInv varCid varProp st1 := by
  rcases eval_err_cases varCid varProp target measure rejectOC st x r st1 hE
    with ⟨hst, -⟩ | ⟨-, hstrong⟩
  · rw [hst]
    exact hI
  · obtain ⟨c, hc, hnr, x0, hx0, hcache⟩ := hI
    obtain ⟨-, hcond⟩ := hstrong c hc
    rcases eval_err_cases varCid varProp target measure rejectOC st x r st1 hE
      with ⟨hst, -⟩ | ⟨hcache1, -⟩
    · rw [hst]
      exact ⟨c, hc, hnr, x0, hx0, hcache⟩
    · exact ⟨_, hcond hnr, hnr, x, alGet_alSet_self _ _ _, hcache1⟩

/-- A cache-miss evaluation establishes the loop invariant. -/
theorem eval_err_estab (varCid varProp : String) (target : ℚ)
    (measure : MeasureSpec) (rejectOC : Bool) (st : GsState) (x : ℚ)
    (r : Option (ℚ × ℚ)) (st1 : GsState) (comp : Component)
    (hE : eval_err varCid varProp target measure rejectOC st x
      = some (r, st1))
    (hmiss : alGet st.cache x = none)
    (hc : st.cir.getComp varCid = some comp)
    (hnr : comp.ctype ≠ "rheostat") : gsInv varCid varProp st1 := by
  rcases eval_err_cases varCid varProp target measure rejectOC st x r st1 hE
    with ⟨-, hsome⟩ | ⟨hcache1, hstrong⟩
  · rw [hmiss] at hsome
    cases hsome
  · obtain ⟨-, hcond⟩ := hstrong comp hc
    exact ⟨_, hcond hnr, hnr, x, alGet_alSet_self _ _ _, hcache1⟩

/-- Any state property preserved by the evaluator is preserved by the
bracketing loop. -/
theorem bracketLoop_pres (E : GsState → ℚ → Option (Option (ℚ × ℚ) × GsState))
    (varProp : String) (orig : BracketOut) (Q : GsState → Prop)
    (hQ : ∀ st x r st1, E st x = some (r, st1) → Q st → Q st1) :
    ∀ (fuel : ℕ) (lo2 hi2 eL eH mL mH : ℚ) (st : GsState) (bo : BracketOut),
      bracketLoop E varProp orig fuel lo2 hi2 eL eH mL mH st = some bo →
      Q st → Q bo.st := by
  intro fuel
  induction fuel with
  | zero =>
      intro lo2 hi2 eL eH mL mH st bo hB hQ0
      rw [bracketLoop] at hB
      injection hB with h
      rw [← h]
      exact hQ0
  | succ fuel ih =>
      intro lo2 hi2 eL eH mL mH st bo hB hQ0
      rw [bracketLoop] at hB
      split at hB
      · injection hB with h
        rw [← h]
        exact hQ0
      · by_cases hc : 0 < lo2 ∧ 0 < hi2 ∧ asciiUpper varProp = "R"
        · rw [if_pos hc] at hB
          try dsimp only at hB
          split at hB
          · cases hB
          · next rLo st1 hE1 =>
              split at hB
              · cases hB
              · next rHi st2 hE2 =>
                  exact ih _ _ _ _ _ _ _ _ hB
                    (hQ _ _ _ _ hE2 (hQ _ _ _ _ hE1 hQ0))
        · rw [if_neg hc] at hB
          try dsimp only at hB
          split at hB
          · cases hB
          · next rLo st1 hE1 =>
              split at hB
              · cases hB
              · next rHi st2 hE2 =>
                  exact ih _ _ _ _ _ _ _ _ hB
                    (hQ _ _ _ _ hE2 (hQ _ _ _ _ hE1 hQ0))

/-- Any state property preserved by the evaluator is preserved by the
main iteration loop. -/
theorem gsLoop_pres (E : GsState → ℚ → Option (Option (ℚ × ℚ) × GsState))
    (useBisect : Bool) (lo hi tolAbs tolRel target : ℚ)
    (Q : GsState → Prop)
    (hQ : ∀ st x r st1, E st x = some (r, st1) → Q st → Q st1) :
    ∀ (fuel it : ℕ) (p0 p1 : ℚ × ℚ × ℚ) (ab bb : ℚ × ℚ) (best : Best)
      (hist : List (ℚ × ℚ)) (st st' : GsState),
      loopSt (gsLoop E useBisect lo hi tolAbs tolRel target fuel it p0 p1
        ab bb best hist st) = some st' →
      Q st → Q st' := by
  intro fuel
  induction fuel with
  | zero =>
      intro it p0 p1 ab bb best hist st st' hL hQ0
      rw [gsLoop, loopSt] at hL
      injection hL with h
      rw [← h]
      exact hQ0
  | succ fuel ih =>
      intro it p0 p1 ab bb best hist st st' hL hQ0
      obtain ⟨x0, y0, m0⟩ := p0
      obtain ⟨x1, y1, m1⟩ := p1
      obtain ⟨a, fa⟩ := ab
      obtain ⟨b, fb⟩ := bb
      rw [gsLoop] at hL
      dsimp only at hL
      split at hL
      · split at hL
        · rw [loopSt] at hL
          cases hL
        · next st1 hEm =>
            rw [loopSt] at hL
            injection hL with h
            rw [← h]
            exact hQ _ _ _ _ hEm hQ0
        · next fm mm st1 hEm =>
            try dsimp only at hL
            split at hL
            · rw [loopSt] at hL
              injection hL with h
              rw [← h]
              exact hQ _ _ _ _ hEm hQ0
            · rcases habs : (if fa = 0 then ((qdiv (qadd a b) 2, fm), (b, fb))
                  else if fb = 0 then ((a, fa), (qdiv (qadd a b) 2, fm))
                  else if (fa < 0 ∧ 0 < fm) ∨ (0 < fa ∧ fm < 0) then
                    ((a, fa), (qdiv (qadd a b) 2, fm))
                  else ((qdiv (qadd a b) 2, fm), (b, fb)))
                with ⟨ab1, ab2⟩
              rw [habs] at hL
              try dsimp only at hL
              exact ih _ _ _ _ _ _ _ _ _ hL (hQ _ _ _ _ hEm hQ0)
      · split at hL
        · rw [loopSt] at hL
          injection hL with h
          rw [← h]
          exact hQ0
        · try dsimp only at hL
          split at hL
          · rw [loopSt] at hL
            cases hL
          · next st1 hEm =>
              rw [loopSt] at hL
              injection hL with h
              rw [← h]
              exact hQ _ _ _ _ hEm hQ0
          · next y2 m2 st1 hEm =>
              try dsimp only at hL
              split at hL
              · rw [loopSt] at hL
                injection hL with h
                rw [← h]
                exact hQ _ _ _ _ hEm hQ0
              · exact ih _ _ _ _ _ _ _ _ _ hL (hQ _ _ _ _ hEm hQ0)

theorem getProp_setProp_self (c : Circuit) (cid key : String) (v : ℚ)
    (hp : (c.getComp cid).isSome) :
    getProp (setProp c cid key v) cid key = some v := by
  rcases hc : c.getComp cid with _ | comp
  · rw [hc] at hp
    cases hp
  · unfold getProp
    rw [getComp_setProp_self, hc]
    try dsimp only
    exact alGet_alSet_self _ _ _

/-- The state `goal_seek_parameter_aux` hands back: on failure the
variable property is restored to its pre-call value (when it had one); on
success it is left at an evaluated (cached) iterate. -/
theorem gs_aux_state (cir : Circuit) (varCid varProp : String) (target : ℚ)
    (measure : MeasureSpec) (lo hi tolAbs tolRel : ℚ) (maxIter : ℕ)
    (method : String) (rejectOC : Bool) (res : GoalSeekResult)
    (st' : GsState)
    (haux : goal_seek_parameter_aux cir varCid varProp target measure lo hi
      tolAbs tolRel maxIter method rejectOC = some (res, st')) :
    (res.ok = false →
      ∀ v0, getProp cir varCid varProp = some v0 →
        getProp st'.cir varCid varProp = some v0)
    ∧ (res.ok = true →
        (∀ c ∈ cir.components, c.cid = varCid → c.ctype ≠ "rheostat") →
        ∃ x, getProp st'.cir varCid varProp = some x ∧
          (alGet st'.cache x).isSome) := by
  unfold goal_seek_parameter_aux at haux
  split at haux
  · injection haux with h2
    rw [Prod.mk.injEq] at h2
    obtain ⟨hres, hst⟩ := h2
    constructor
    · intro _ v0 hv
      rw [← hst]
      exact hv
    · intro hok _
      rw [← hres] at hok
      simp at hok
  · next comp hgc =>
      split at haux
      · injection haux with h2
        rw [Prod.mk.injEq] at h2
        obtain ⟨hres, hst⟩ := h2
        constructor
        · intro _ v0 hv
          rw [← hst]
          exact hv
        · intro hok _
          rw [← hres] at hok
          simp at hok
      · split at haux
        next lo1 hi1 hswap =>
        dsimp only at haux
        have hmem : comp ∈ cir.components := List.mem_of_find?_eq_some hgc
        have hcidc : comp.cid = varCid := by
          simpa using List.find?_some hgc
        have hp0 : ((⟨cir, []⟩ : GsState).cir.getComp varCid).isSome := by
          dsimp only
          rw [hgc]
          rfl
        split at haux
        · cases haux
        · next rLo st1 hE1 =>
            have hp1 : (st1.cir.getComp varCid).isSome :=
              eval_err_pres _ _ _ _ _ _ _ _ _ hE1 hp0
            have hinv1 : (∀ c ∈ cir.components, c.cid = varCid →
                c.ctype ≠ "rheostat") → gsInv varCid varProp st1 :=
              fun hNR => eval_err_estab _ _ _ _ _ _ _ _ _ comp hE1 rfl hgc
                (hNR comp hmem hcidc)
            split at haux
            · cases haux
            · next rHi st2 hE2 =>
                have hp2 : (st2.cir.getComp varCid).isSome :=
                  eval_err_pres _ _ _ _ _ _ _ _ _ hE2 hp1
                have hinv2 : (∀ c ∈ cir.components, c.cid = varCid →
                    c.ctype ≠ "rheostat") → gsInv varCid varProp st2 :=
                  fun hNR => eval_err_inv _ _ _ _ _ _ _ _ _ hE2 (hinv1 hNR)
                split at haux
                · cases haux
                · next lo2 rLo2 hi2v rHi2 st3 hsub =>
                    have hst3 : (st3.cir.getComp varCid).isSome ∧
                        ((∀ c ∈ cir.components, c.cid = varCid →
                          c.ctype ≠ "rheostat") →
                          gsInv varCid varProp st3) := by
                      split at hsub
                      · split at hsub
                        · cases hsub
                        · next rMid st4 hEm =>
                            have hp4 : (st4.cir.getComp varCid).isSome :=
                              eval_err_pres _ _ _ _ _ _ _ _ _ hEm hp2
                            have hinv4 : (∀ c ∈ cir.components,
                                c.cid = varCid → c.ctype ≠ "rheostat") →
                                gsInv varCid varProp st4 :=
                              fun hNR =>
                                eval_err_inv _ _ _ _ _ _ _ _ _ hEm (hinv2 hNR)
                            repeat' split at hsub
                            all_goals
                              injection hsub with h2
                              rw [Prod.mk.injEq] at h2
                              obtain ⟨-, h2⟩ := h2
                              rw [Prod.mk.injEq] at h2
                              obtain ⟨-, h3⟩ := h2
                              rw [← h3]
                              exact ⟨hp4, hinv4⟩
                      · injection hsub with h2
                        rw [Prod.mk.injEq] at h2
                        obtain ⟨-, h2⟩ := h2
                        rw [Prod.mk.injEq] at h2
                        obtain ⟨-, h3⟩ := h2
                        rw [← h3]
                        exact ⟨hp2, hinv2⟩
                    split at haux
                    · next e_lo m_lo e_hi m_hi =>
                        try dsimp only at haux
                        split at haux
                        · cases haux
                        · next bo hbo =>
                            have hpb : (bo.st.cir.getComp varCid).isSome ∧
                                ((∀ c ∈ cir.components, c.cid = varCid →
                                  c.ctype ≠ "rheostat") →
                                  gsInv varCid varProp bo.st) := by
                              split at hbo
                              · constructor
                                · exact bracketLoop_pres _ varProp _
                                    (fun st => (st.cir.getComp varCid).isSome)
                                    (fun st x r st1 hE hq =>
                                      eval_err_pres _ _ _ _ _ _ _ _ _ hE hq)
                                    12 _ _ _ _ _ _ _ _ hbo hst3.1
                                · intro hNR
                                  exact bracketLoop_pres _ varProp _
                                    (gsInv varCid varProp)
                                    (fun st x r st1 hE hq =>
                                      eval_err_inv _ _ _ _ _ _ _ _ _ hE hq)
                                    12 _ _ _ _ _ _ _ _ hbo (hst3.2 hNR)
                              · injection hbo with h
                                rw [← h]
                                exact ⟨hst3.1, hst3.2⟩
                            split at haux
                            · cases haux
                            · next v m e itn hist stS hloop =>
                                injection haux with h2
                                rw [Prod.mk.injEq] at h2
                                obtain ⟨hres, hst⟩ := h2
                                constructor
                                · intro hfail v0 hv
                                  rw [← hres] at hfail
                                  simp at hfail
                                · intro hok hNR
                                  have hS : gsInv varCid varProp stS :=
                                    gsLoop_pres _ _ _ _ _ _ _
                                      (gsInv varCid varProp)
                                      (fun st x r st1 hE hq =>
                                        eval_err_inv _ _ _ _ _ _ _ _ _ hE hq)
                                      maxIter 0 _ _ _ _ _ _ _ _
                                      (by rw [hloop]; rfl) (hpb.2 hNR)
                                  rw [← hst]
                                  obtain ⟨c, hc, -, x, hx, hcache⟩ := hS
                                  refine ⟨x, ?_, hcache⟩
                                  unfold getProp
                                  rw [hc]
                                  exact hx
                            · next reason best itn hist stF hloop =>
                                injection haux with h2
                                rw [Prod.mk.injEq] at h2
                                obtain ⟨hres, hst⟩ := h2
                                constructor
                                · intro hfail v0 hv
                                  rw [← hst]
                                  dsimp only
                                  have hSp : (stF.cir.getComp varCid).isSome :=
                                    gsLoop_pres _ _ _ _ _ _ _
                                      (fun st =>
                                        (st.cir.getComp varCid).isSome)
                                      (fun st x r st1 hE hq =>
                                        eval_err_pres _ _ _ _ _ _ _ _ _ hE hq)
                                      maxIter 0 _ _ _ _ _ _ _ _
                                      (by rw [hloop]; rfl) hpb.1
                                  have hvp : alGet comp.props varProp
                                      = some v0 := by
                                    unfold getProp at hv
                                    rw [hgc] at hv
                                    exact hv
                                  rw [hvp]
                                  exact getProp_setProp_self stF.cir varCid
                                    varProp v0 hSp
                                · intro hok _
                                  rw [← hres] at hok
                                  simp at hok
                    all_goals
                      injection haux with h2
                      rw [Prod.mk.injEq] at h2
                      obtain ⟨hres, hst⟩ := h2
                      constructor
                      · intro hfail v0 hv
                        rw [← hst]
                        dsimp only
                        have hvp : alGet comp.props varProp = some v0 := by
                          unfold getProp at hv
                          rw [hgc] at hv
                          exact hv
                        rw [hvp]
                        exact getProp_setProp_self st3.cir varCid varProp v0
                          hst3.1
                      · intro hok _
                        rw [← hres] at hok
                        simp at hok

/-- C3 counterexample: when the variable property is absent before the
call, a failing goal-seek does not restore that state — it writes the
property as `0` (`original if original is not None else 0.0`).  Before the
call `r1` has no `R`; after the failing call `R` exists and equals 0. -/
theorem goal_seek_restore_cex :
    getProp gsEmptyCircuit "r1" "R" = none ∧
      (goal_seek_parameter gsEmptyCircuit "r1" "R" 1 measureNone 1 2).map
          (fun p => (p.1.ok, getProp p.2 "r1" "R"))
        = some (false, some 0) := by
  decide

/-- C3 (amended): for every goal-seek call on a component whose variable
property exists before the call with value `v0`, every `ok=false` return
leaves the property equal to `v0`. -/
theorem goal_seek_failure_restores (cir : Circuit) (varCid varProp : String)
    (target : ℚ) (measure : MeasureSpec) (lo hi tolAbs tolRel : ℚ)
    (maxIter : ℕ) (method : String) (rejectOC : Bool) (v0 : ℚ)
    (p : GoalSeekResult × Circuit)
    (hg : goal_seek_parameter cir varCid varProp target measure lo hi tolAbs
      tolRel maxIter method rejectOC = some p)
    (hfail : p.1.ok = false)
    (hv : getProp cir varCid varProp = some v0) :
    getProp p.2 varCid varProp = some v0 := by
  unfold goal_seek_parameter at hg
  cases haux : goal_seek_parameter_aux cir varCid varProp target measure lo
      hi tolAbs tolRel maxIter method rejectOC with
  | none =>
      rw [haux] at hg
      cases hg
  | some q =>
      rw [haux] at hg
      obtain ⟨res, st1⟩ := q
      injection hg with h
      rw [← h] at hfail ⊢
      exact (gs_aux_state cir varCid varProp target measure lo hi tolAbs
        tolRel maxIter method rejectOC res st1 haux).1 hfail v0 hv

/-- Witness for the amended C3: a failing call on the 50 Ω resistor
leaves `R` at 50. -/
theorem goal_seek_failure_restores_witness :
    getProp gsC3P.2 "r1" "R" = some 50 :=
  goal_seek_failure_restores gsResCircuit "r1" "R" 1 measureNone 1 2
    (mkRat 1 1000000000) MILLIONTH 60 "auto" false 50 gsC3P (by decide)
    (by decide) (by decide)

/-- C4 counterexample: a successful secant run can finish on a memo-cache
hit, so the final in-place write is the previously evaluated iterate, not
the winning one: the result has `ok=true` and `value = 5`, yet `R` is left
at 10. -/
theorem goal_seek_value_writeback_cex :
    (goal_seek_parameter gsResCircuit "r1" "R" 5 measureR 5 10
        (mkRat 1 1000000000) MILLIONTH 60 "secant").map
        (fun p => (p.1.ok, p.1.value, getProp p.2 "r1" "R"))
      = some (true, 5, some 10) := by
  decide

/-- C4 (amended): when the variable component is not a rheostat (whose
clamp write-back can move the property), every `ok=true` goal-seek return
leaves the property at some evaluated iterate — a key of the evaluation
memo — though not necessarily at the returned `value`. -/
theorem goal_seek_success_cached (cir : Circuit) (varCid varProp : String)
    (target : ℚ) (measure : MeasureSpec) (lo hi tolAbs tolRel : ℚ)
    (maxIter : ℕ) (method : String) (rejectOC : Bool)
    (p : GoalSeekResult × GsState)
    (haux : goal_seek_parameter_aux cir varCid varProp target measure lo hi
      tolAbs tolRel maxIter method rejectOC = some p)
    (hok : p.1.ok = true)
    (hnr : ∀ c ∈ cir.components, c.cid = varCid → c.ctype ≠ "rheostat") :
    ∃ x, getProp p.2.cir varCid varProp = some x ∧
      (alGet p.2.cache x).isSome := by
  obtain ⟨res, st1⟩ := p
  exact (gs_aux_state cir varCid varProp target measure lo hi tolAbs tolRel
    maxIter method rejectOC res st1 haux).2 hok hnr

/-- Witness for the amended C4: the one-step bisection success leaves `R`
at the cached winning iterate `15/2`. -/
theorem goal_seek_success_cached_witness :
    ∃ x, getProp gsC4P.2.cir "r1" "R" = some x ∧
      (alGet gsC4P.2.cache x).isSome :=
  goal_seek_success_cached gsResCircuit "r1" "R" (mkRat 15 2) measureR 5 10
    (mkRat 1 1000000000) MILLIONTH 60 "auto" false gsC4P (by decide)
    (by decide) (by decide)

end CircuitSimu
